import Mathlib

/-!
Verification development for the NeonOcean S4.Debug logging subsystem.

This file shallowly embeds the two logging-engine variants of the repository:

* the current variant in
  src/Python/NeonOcean.S4.Debug/NeonOcean/S4/Debug/Logging.py
  (namespace S4 below), and
* the legacy variant in
  src/Python/NeonOcean.Debug/NeonOcean/Debug/Logging.py
  (namespace Legacy below).

Python strings are modelled as List Char (sequences of code points), file
contents as List Nat (byte sequences; all marker constants are ASCII so a
code point equals its byte).  The ambient module globals (settings) are
modelled as explicit per-call inputs, since they are plain module variables
read at call time and written by external settings callbacks.  os.linesep is
modelled as a single newline character.
-/

set_option maxRecDepth 10000

namespace S4Debug

/-- Log severity levels.  Modelled from the spec: the enumeration
NeonOcean.Main.Debug.LogLevels lives outside src/; per the spec it is an
ordered enumeration Debug < Info < Warning < Error < Exception with the
lower numeric value being the more severe. -/
inductive LogLevels where
  | Exception
  | Error
  | Warning
  | Info
  | Debug
deriving DecidableEq, Repr

/-- Numeric value of a log level (the Python enum integer value). -/
def LogLevels.toNat : LogLevels → Nat
  | .Exception => 0
  | .Error => 1
  | .Warning => 2
  | .Info => 3
  | .Debug => 4

/-- The fixed display name of a log level (Python Enum .name). -/
def LogLevels.levelName : LogLevels → List Char
  | .Exception => "Exception".data
  | .Error => "Error".data
  | .Warning => "Warning".data
  | .Info => "Info".data
  | .Debug => "Debug".data

/-- Python truthiness of an Optional[bool] module global
(None and False are falsy). -/
def truthy : Option Bool → Bool
  | some b => b
  | none => false

/-- File contents: a byte sequence. -/
abbrev Bytes := List Nat

/-- Encoding of a string to bytes.  The encoded constants in the source are
all ASCII, for which UTF-8 bytes coincide with code points. -/
def strBytes (s : String) : Bytes :=
  s.data.map Char.toNat

/-- Encoding of a modelled Python string to bytes. -/
def charsBytes (s : List Char) : Bytes :=
  s.map Char.toNat

/-- os.linesep, modelled as a single newline. -/
def osLinesep : String := "\n"

/-- _Logger._logStartBytes: the fixed start marker of every log file. -/
def logStartBytes : Bytes :=
  strBytes ("<?xml version=\"1.0\" encoding=\"utf-8\"?>" ++ osLinesep ++ "<LogFile>" ++ osLinesep)

/-- _Logger._logEndBytes: the fixed end marker of every log file. -/
def logEndBytes : Bytes :=
  strBytes (osLinesep ++ "</LogFile>")

/-- The blank-line separator written between appended batches:
(os.linesep + os.linesep).encode("utf-8"). -/
def sepBytes : Bytes :=
  strBytes (osLinesep ++ osLinesep)

/-- The truncation notice "<!--Log file size limit reached-->".encode("utf-8")
appended when the size cap is met (S4 variant). -/
def sizeNoticeBytes : Bytes :=
  strBytes "<!--Log file size limit reached-->"

/-- Does the list begin with the given pattern? -/
def startsWith {α : Type} [DecidableEq α] : List α → List α → Bool
  | [], _ => true
  | _ :: _, [] => false
  | p :: ps, c :: cs => decide (p = c) && startsWith ps cs

/-- Does the pattern occur as a contiguous subsequence of the list? -/
def containsSeq {α : Type} [DecidableEq α] (pat : List α) : List α → Bool
  | [] => startsWith pat []
  | c :: cs => startsWith pat (c :: cs) || containsSeq pat cs

/-! ## The log-file format and the integrity verifier (claim C3)

_Logger._VerifyLogFile opens the file, compares the first
len(_logStartBytes) bytes against the start marker, seeks to
len(_logEndBytes) before the end and compares the remaining bytes against
the end marker (Logging.py of NeonOcean.Debug, lines 491-499). -/

/-- _VerifyLogFile, as a boolean: True means no exception was raised. -/
def verifyLogFile (startB endB f : Bytes) : Bool :=
  decide (f.take startB.length = startB) &&
    decide (f.drop (f.length - endB.length) = endB)

/-- A first write creates the file as startMarker ++ payload ++ endMarker. -/
def firstWriteFile (startB endB payload : Bytes) : Bytes :=
  startB ++ payload ++ endB

/-- A splice-append: seek to len(file) - len(endMarker), then write the
separator, the payload and the end marker from there. -/
def spliceAppend (endB sep payload f : Bytes) : Bytes :=
  f.take (f.length - endB.length) ++ sep ++ payload ++ endB

/-! ## The record serializer (claim C4)

_Report.GetText of src/Python/NeonOcean.Debug/NeonOcean/Debug/Logging.py,
lines 49-104.  Python strings are List Char; the .format template assembly
is rendered as direct concatenation of the template pieces with the
formatted arguments. -/

/-- messageText.replace("\r\n", "\n"): left-to-right newline normalization. -/
def normNewlines : List Char → List Char
  | '\r' :: '\n' :: rest => '\n' :: normNewlines rest
  | c :: rest => c :: normNewlines rest
  | [] => []

/-- One character of xml.sax.saxutils.escape: the characters amp, lt and gt
are replaced by their entities. -/
def escapeChar (c : Char) : List Char :=
  if c = '&' then "&amp;".data
  else if c = '<' then "&lt;".data
  else if c = '>' then "&gt;".data
  else [c]

/-- One character of .replace("\n", "\n<!--\t\t-->"). -/
def commentChar (c : Char) : List Char :=
  if c = '\n' then '\n' :: "<!--\t\t-->".data else [c]

/-- The full escaping pipeline applied to message, exception and stack text:
normalize line endings, escape markup characters, then keep every new line
inside a comment continuation. -/
def escapeText (s : List Char) : List Char :=
  ((normNewlines s).flatMap escapeChar).flatMap commentChar

/-- The combined per-character expansion of the two replacement passes. -/
def renderChar (c : Char) : List Char :=
  (escapeChar c).flatMap commentChar

/-- Little-endian decimal digits with structural fuel. -/
def natDigitsAux : Nat → Nat → List Nat
  | 0, _ => []
  | fuel + 1, n => if n = 0 then [] else (n % 10) :: natDigitsAux fuel (n / 10)

/-- str(number): decimal rendering of the sequence number. -/
def natToChars (n : Nat) : List Char :=
  if n = 0 then ['0']
  else (natDigitsAux n n).reverse.map fun d => Char.ofNat (48 + d)

/-- The two-character sequence whose absence rules out an Exception tag. -/
def ltE : List Char := ['<', 'E']

/-- One log record.  The S4 variant constructs NeonOcean.S4.Main.DebugShared
Report objects and the legacy variant its local _Report class; both carry
these fields.  The captured exception object is abstracted to its formatted
text (only its presence and the text that the formatter would produce
matter to the serializer).  Modelled from the spec: the RetryOnError flag
(spec section 3) defaults to true on a fresh record. -/
structure Report where
  logNumber : Nat
  logTime : List Char
  message : List Char
  level : LogLevels
  group : List Char
  owner : Option (List Char)
  exceptionText : Option (List Char)
  logStack : Bool
  stacktrace : List Char
  retryOnError : Bool := true
deriving DecidableEq, Repr

/-- Modelled from the spec: NeonOcean.Main.Debug.FormatException (outside
src/) renders a captured exception to text; for a missing exception the
Python str conversion path yields the text None. -/
def formatException : Option (List Char) → List Char
  | some t => t
  | none => "None".data

/-- logText.replace("\n", os.linesep), the final line-ending conversion of
GetText. -/
def applyLinesep (s : List Char) : List Char :=
  s.flatMap fun c => if c = '\n' then osLinesep.data else [c]

/-- The optional Owner attribute of the Log tag (template lines 58-60). -/
def ownerBlock : Option (List Char) → List Char
  | some o => " Owner=\"".data ++ o ++ "\"".data
  | none => []

/-- The optional WriteTime attribute of the Log tag (template lines 65-67). -/
def writeTimeBlock : Option (List Char) → List Char
  | some w => " WriteTime=\"".data ++ w ++ "\"".data
  | none => []

/-- The Exception section: emitted when the level value is at most the
Exception level value (template lines 79-87). -/
def exceptionBlock (r : Report) : List Char :=
  if r.level.toNat ≤ LogLevels.Exception.toNat then
    "\t\t<Exception><!--\n\t\t\t-->".data
      ++ escapeText (formatException r.exceptionText)
      ++ "<!--\n\t\t--></Exception>\n".data
  else []

/-- The Stacktrace section: emitted when the level value is at most the
Error level value or the logStack flag is set (template lines 89-97). -/
def stacktraceBlock (r : Report) : List Char :=
  if r.level.toNat ≤ LogLevels.Error.toNat || r.logStack then
    "\t\t<Stacktrace><!--\n\t\t\t-->".data
      ++ escapeText r.stacktrace
      ++ "<!--\n\t\t--></Stacktrace>\n".data
  else []

/-- _Report.GetText before the final line-ending conversion: the formatted
template of Logging.py (NeonOcean.Debug) lines 50-101. -/
def getTextRaw (r : Report) (writeTime : Option (List Char)) : List Char :=
  "\t<Log Number=\"".data ++ natToChars r.logNumber
    ++ "\" Level=\"".data ++ r.level.levelName
    ++ "\" Group=\"".data ++ r.group
    ++ "\"".data
    ++ ownerBlock r.owner
    ++ " LogTime=\"".data ++ r.logTime ++ "\"".data
    ++ writeTimeBlock writeTime
    ++ ">\n\t\t<Message><!--\n\t\t\t-->".data
    ++ escapeText r.message
    ++ "<!--\n\t\t--></Message>\n".data
    ++ exceptionBlock r
    ++ stacktraceBlock r
    ++ "\t</Log>".data

/-- _Report.GetText: the rendered markup block of one record. -/
def GetText (r : Report) (writeTime : Option (List Char)) : List Char :=
  applyLinesep (getTextRaw r writeTime)

/-- _Report.GetBytes: the UTF-8 encoding of the rendered block. -/
def reportBytes (r : Report) (writeTime : Option (List Char)) : Bytes :=
  charsBytes (GetText r writeTime)

/-! ## Filesystem model

Files are an association list from path to byte content.  Directories are
not modelled (the makedirs calls of the source only ensure their
existence).  os.path.join is rendered with a fixed separator. -/

/-- The filesystem: path to content. -/
abbrev FS := List (String × Bytes)

/-- os.path.join. -/
def pjoin (a b : String) : String := a ++ "/" ++ b

/-- Content of the file at a path, when it exists. -/
def fsGet (fs : FS) (p : String) : Option Bytes :=
  (fs.find? (fun e => e.1 == p)).map (fun e => e.2)

/-- os.path.exists. -/
def fsExists (fs : FS) (p : String) : Bool :=
  (fsGet fs p).isSome

/-- Writing a file (creating or replacing its content). -/
def fsSet (fs : FS) (p : String) (v : Bytes) : FS :=
  if fs.any (fun e => e.1 == p) then
    fs.map (fun e => if e.1 == p then (e.1, v) else e)
  else fs ++ [(p, v)]

/-- os.remove. -/
def fsRemove (fs : FS) (p : String) : FS :=
  fs.filter (fun e => !(e.1 == p))

/-- Exceptions that the modelled write procedures can raise. -/
inductive PyError where
  /-- _VerifyLogFile raised: a marker comparison failed. -/
  | verifyFailed
  /-- TypeError: the source applies += bytes to the group dict. -/
  | typeFault
  /-- FileNotFoundError: os.path.getsize on a missing file. -/
  | missingFile
  /-- An injected I/O fault (the write-failure oracle). -/
  | injected
deriving DecidableEq, Repr

/-- Observable side effects recorded by the flush engine, used to state
that a call performed (or did not perform) filesystem work. -/
inductive Event where
  /-- One entry into the guarded write procedure (the try block performing
  all filesystem operations of one batch write). -/
  | writeAttempt
  /-- One invocation of ChangeLogFile. -/
  | changeLogFile
  /-- One request of the user-facing write-failure notification. -/
  | notification
deriving DecidableEq, Repr

/-- _writeFailureLimit, the constant 2. -/
def writeFailureLimit : Nat := 2

/-- The logging root directory (os.path.join(Paths.DebugPath, "Logs");
the concrete prefix is irrelevant). -/
def loggingRoot : String := "Logs"

/-! ## The S4 flush engine

src/Python/NeonOcean.S4.Debug/NeonOcean/S4/Debug/Logging.py. -/

namespace S4

/-- The module-global settings of the S4 variant, read by Log and
_LogAllReports at call time.  logSizeLimit is GetLogSizeLimit's value,
already converted to bytes (int(_logSizeLimit * 1000000)); a negative
value means unlimited. -/
structure Settings where
  loggingEnabled : Option Bool
  writeChronological : Option Bool
  writeGroups : Option Bool
  logLevel : Option LogLevels
  logInterval : Option ℚ
  logSizeLimit : Int

/-- The state of the S4 _Logger instance together with the filesystem and
the recorded effect trace.  nameSupply models the timestamps that
ChangeLogFile would derive fresh directory names from. -/
structure St where
  writeFailureCount : Nat
  logCount : Nat
  reportStorage : List Report
  loggingDirectoryName : String
  isContinuation : Bool
  sessionInfo : List Char
  modsInfo : List Char
  shownWriteFailureNotification : Bool
  fs : FS
  attemptIdx : Nat
  events : List Event
  nameSupply : List String

/-- Modelled from the spec: _CreateSessionInformation gathers external
environment data (spec section 4.5); only its dependence on the
continuation flag is retained. -/
def mkSessionInfo (isCont : Bool) : List Char :=
  if isCont then "session (continuation)".data else "session".data

/-- Modelled from the spec: _CreateModsInformation walks the mods
directory (spec section 4.5); its content is abstract. -/
def mkModsInfo : List Char := "mods".data

/-- ChangeLogFile: pick a fresh timestamp-derived directory name, mark the
logger as a continuation and regenerate the snapshot texts.  The failure
counter and the pending buffer are untouched. -/
def changeLogFileOp (st : St) : St :=
  match st.nameSupply with
  | n :: rest =>
      { st with
          loggingDirectoryName := n
          nameSupply := rest
          isContinuation := true
          sessionInfo := mkSessionInfo true
          modsInfo := mkModsInfo
          events := st.events ++ [Event.changeLogFile] }
  | [] =>
      { st with
          loggingDirectoryName := st.loggingDirectoryName ++ "+"
          isContinuation := true
          sessionInfo := mkSessionInfo true
          modsInfo := mkModsInfo
          events := st.events ++ [Event.changeLogFile] }

/-- Appending one report's bytes to the accumulating per-group map
(groupsTextBytes[group] += separator + bytes, or a fresh entry). -/
def assocAppend (l : List (String × Bytes)) (k : String) (v : Bytes) :
    List (String × Bytes) :=
  if l.any (fun e => e.1 == k) then
    l.map (fun e => if e.1 == k then (e.1, e.2 ++ sepBytes ++ v) else e)
  else l ++ [(k, v)]

/-- The rendering loop of _LogAllReports (lines 174-188): producing the
chronological blob and the per-group blobs. -/
def renderBatch (writeChronological writeGroups : Bool) (now : List Char)
    (reports : List Report) : Bytes × List (String × Bytes) :=
  reports.foldl
    (fun acc r =>
      let rb := reportBytes r (some now)
      let chrono :=
        if writeChronological then
          if acc.1.length ≠ 0 then acc.1 ++ sepBytes ++ rb else rb
        else acc.1
      let gs := if writeGroups then assocAppend acc.2 (String.mk r.group) rb else acc.2
      (chrono, gs))
    ([], [])

/-- The cap check of a chronological first write (line 233): when
len(start) + len(payload) + len(end) meets a non-negative limit, the
truncation notice is appended to the payload. -/
def cappedFirstPayload (L : Int) (payload : Bytes) : Bytes :=
  if (logStartBytes.length + payload.length + logEndBytes.length : Int) ≥ L ∧ 0 ≤ L then
    payload ++ sizeNoticeBytes
  else payload

/-- A chronological first write (lines 236-239). -/
def chronoWriteFirst (L : Int) (payload : Bytes) : Bytes :=
  firstWriteFile logStartBytes logEndBytes (cappedFirstPayload L payload)

/-- The cap check before a splice append (line 252): the current file
size plus separator, payload and end marker against the limit. -/
def cappedAppendPayload (L : Int) (logSize : Nat) (payload : Bytes) : Bytes :=
  if (logSize + sepBytes.length + payload.length + logEndBytes.length : Int) ≥ L ∧ 0 ≤ L then
    payload ++ sizeNoticeBytes
  else payload

/-- A chronological append (lines 249-259): skipped entirely when the file
has already reached a non-negative limit, otherwise a splice of the
(possibly notice-extended) payload. -/
def chronoWriteAppend (L : Int) (payload f : Bytes) : Option Bytes :=
  if L < 0 ∨ (f.length : Int) < L then
    some (spliceAppend logEndBytes sepBytes (cappedAppendPayload L f.length payload) f)
  else none

/-- One iteration of the per-group write loop of _LogAllReports
(lines 272-300).  The source has two slips here, reproduced faithfully:
the cap comparisons use len(groupsTextBytes) — the number of entries of
the group dict (numGroups) — instead of the group payload's length, and
appending the notice to the dict raises TypeError; and the size read for
the cap check is that of the chronological file, not the group file. -/
def groupStep (L : Int) (numGroups : Nat) (writeGroups : Bool)
    (groupsDir chronoPath : String) (fs : FS) (entry : String × Bytes) :
    Except PyError FS :=
  if writeGroups then
    let gPath := pjoin groupsDir (entry.1 ++ ".xml")
    match fsGet fs gPath with
    | none =>
        if (logStartBytes.length + numGroups + logEndBytes.length : Int) ≥ L ∧ 0 ≤ L then
          Except.error PyError.typeFault
        else
          Except.ok (fsSet fs gPath (firstWriteFile logStartBytes logEndBytes entry.2))
    | some gf =>
        if verifyLogFile logStartBytes logEndBytes gf then
          match fsGet fs chronoPath with
          | none => Except.error PyError.missingFile
          | some cf =>
              if L < 0 ∨ (cf.length : Int) < L then
                if (cf.length + sepBytes.length + numGroups + logEndBytes.length : Int) ≥ L ∧ 0 ≤ L then
                  Except.error PyError.typeFault
                else
                  Except.ok (fsSet fs gPath (spliceAppend logEndBytes sepBytes entry.2 gf))
              else Except.ok fs
        else Except.error PyError.verifyFailed
  else Except.ok fs

/-- The guarded write procedure of _LogAllReports (the try block,
lines 210-300): snapshot files, the chronological stream with its Latest
mirror, then the group streams. -/
def writeBody (sett : Settings) (dirName : String)
    (sessionInfo modsInfo : List Char) (fs : FS) (chronoBytes : Bytes)
    (groups : List (String × Bytes)) : Except PyError FS := do
  let loggingDirectory := pjoin loggingRoot dirName
  let chronoPath := pjoin loggingDirectory "Log.xml"
  let latestPath := pjoin loggingRoot "Latest.xml"
  let sessionPath := pjoin loggingDirectory "Session.txt"
  let modsPath := pjoin loggingDirectory "Mods Directory.txt"
  let groupsDir := pjoin loggingDirectory "Groups"
  let L := sett.logSizeLimit
  let fs1 := if fsExists fs sessionPath then fs else fsSet fs sessionPath (charsBytes sessionInfo)
  let fs2 := if fsExists fs1 modsPath then fs1 else fsSet fs1 modsPath (charsBytes modsInfo)
  let fs3 ←
    if truthy sett.writeChronological then
      match fsGet fs2 chronoPath with
      | none =>
          let content := chronoWriteFirst L chronoBytes
          let fsA := fsSet fs2 chronoPath content
          let fsB := if fsExists fsA latestPath then fsRemove fsA latestPath else fsA
          pure (fsSet fsB latestPath content)
      | some f =>
          if verifyLogFile logStartBytes logEndBytes f then
            match chronoWriteAppend L chronoBytes f with
            | some f2 =>
                let fsA := fsSet fs2 chronoPath f2
                let payload2 := cappedAppendPayload L f.length chronoBytes
                let fsB :=
                  match fsGet fsA latestPath with
                  | some lf =>
                      if verifyLogFile logStartBytes logEndBytes lf then
                        fsSet fsA latestPath (spliceAppend logEndBytes sepBytes payload2 lf)
                      else fsSet fsA latestPath f2
                  | none => fsSet fsA latestPath f2
                pure fsB
            | none => pure fs2
          else throw PyError.verifyFailed
    else pure fs2
  groups.foldlM (groupStep L groups.length (truthy sett.writeGroups) groupsDir chronoPath) fs3

/-- Entering the guarded write procedure: record the attempt. -/
def recordAttempt (st : St) : St :=
  { st with
      events := st.events ++ [Event.writeAttempt]
      attemptIdx := st.attemptIdx + 1 }

/-- self._writeFailureCount += 1 (line 302). -/
def recordFailure (st : St) : St :=
  { st with writeFailureCount := st.writeFailureCount + 1 }

/-- The one-time write-failure notification (lines 304-306). -/
def maybeNotify (st : St) : St :=
  if ¬ st.shownWriteFailureNotification then
    { st with
        shownWriteFailureNotification := true
        events := st.events ++ [Event.notification] }
  else st

/-- The outcome of one entry into the guarded write procedure: an
injected I/O fault, or the write body's own result. -/
def attemptOutcome (st : St) (sett : Settings) (reports : List Report)
    (faults : Nat → Bool) (now : List Char) : Except PyError FS :=
  if faults st.attemptIdx then Except.error PyError.injected
  else
    writeBody sett st.loggingDirectoryName st.sessionInfo st.modsInfo st.fs
      (renderBatch (truthy sett.writeChronological) (truthy sett.writeGroups) now reports).1
      (renderBatch (truthy sett.writeChronological) (truthy sett.writeGroups) now reports).2

/-- One attempt of _LogAllReports: the early-out guards, the rendering,
the guarded write and the except clause (lines 162-322).  The result is
either the final state, or — when the failure handler decides to retry —
the rotated state together with the batch whose RetryOnError flags were
cleared. -/
def attemptStep (st : St) (sett : Settings) (reports : List Report)
    (faults : Nat → Bool) (now : List Char) : St ⊕ (St × List Report) :=
  if ¬ truthy sett.writeChronological ∧ ¬ truthy sett.writeGroups then Sum.inl st
  else if reports.length = 0 then Sum.inl st
  else
    match attemptOutcome st sett reports faults now with
    | Except.ok fs2 => Sum.inl { recordAttempt st with fs := fs2 }
    | Except.error _ =>
        if (maybeNotify (recordFailure (recordAttempt st))).writeFailureCount <
            writeFailureLimit then
          if (reports.filter (fun r => r.retryOnError)).length ≠ 0 then
            Sum.inr (changeLogFileOp (maybeNotify (recordFailure (recordAttempt st))),
              reports.map (fun r => { r with retryOnError := false }))
          else Sum.inl (changeLogFileOp (maybeNotify (recordFailure (recordAttempt st))))
        else Sum.inl (maybeNotify (recordFailure (recordAttempt st)))

/-- _LogAllReports.  The source recurses into itself once after clearing
every RetryOnError flag; since the retried batch carries no set flag the
recursion depth is one, so the second attempt's retry request is provably
dead (attemptStep_no_retry below). -/
def logAllReports (st : St) (sett : Settings) (reports : List Report)
    (faults : Nat → Bool) (now : List Char) : St :=
  match attemptStep st sett reports faults now with
  | Sum.inl st2 => st2
  | Sum.inr (st2, reports2) =>
      match attemptStep st2 sett reports2 faults now with
      | Sum.inl st3 => st3
      | Sum.inr (st3, _) => st3

/-- The level filter shared by Log and _FilterReports: a level is dropped
when the current log level is set and the level's value exceeds it. -/
def levelFilteredOut (logLevel : Option LogLevels) (level : LogLevels) : Bool :=
  match logLevel with
  | some ll => decide (level.toNat > ll.toNat)
  | none => false

/-- _FilterReports (lines 152-160): drop the reports above the current
log level. -/
def filterReports (sett : Settings) (reports : List Report) : List Report :=
  reports.filter (fun r => !(levelFilteredOut sett.logLevel r.level))

/-- Modelled from the spec: the base-class Flush (DebugShared.Logger,
outside src/) discards the pending list without writing when logging is
disabled, otherwise filters it by the current level, writes it through
_LogAllReports and clears it either way (spec section 4.3). -/
def flush (st : St) (sett : Settings) (faults : Nat → Bool) (now : List Char) : St :=
  if truthy sett.loggingEnabled then
    let st2 := logAllReports st sett (filterReports sett st.reportStorage) faults now
    { st2 with reportStorage := [] }
  else { st with reportStorage := [] }

/-- The DebugShared.Report constructed by the S4 Log (lines 87-90):
1-based number from the pre-increment count, the already-defaulted
exception, str(group). -/
def newReport (st : St) (message : List Char) (level : LogLevels)
    (group owner : Option (List Char)) (logStack : Bool)
    (exception currentException : Option (List Char))
    (now stacktrace : List Char) : Report :=
  { logNumber := st.logCount + 1
    logTime := now
    message := message
    level := level
    group := (match group with | none => "None".data | some g => g)
    owner := owner
    exceptionText :=
      (match exception with
       | none => currentException
       | some e => some e)
    logStack := logStack
    stacktrace := stacktrace
    retryOnError := true }

/-- _Logger.Log of the S4 variant (lines 43-95).  The isinstance guards
are omitted (inputs are typed).  currentException models
sys.exc_info()[1]; now and stacktrace model datetime.now().isoformat()
and traceback.format_stack. -/
def logCall (st : St) (sett : Settings) (message : List Char)
    (level : LogLevels) (group owner : Option (List Char)) (logStack : Bool)
    (exception currentException : Option (List Char)) (now stacktrace : List Char)
    (faults : Nat → Bool) : St × Option Report :=
  if st.writeFailureCount ≥ writeFailureLimit then (st, none)
  else if sett.loggingEnabled = some false then (st, none)
  else if levelFilteredOut sett.logLevel level then
    ({ st with logCount := st.logCount + 1 }, none)
  else
    let report : Report :=
      newReport st message level group owner logStack exception currentException
        now stacktrace
    let st1 : St := { st with logCount := st.logCount + 1 }
    let st2 : St := { st1 with reportStorage := st1.reportStorage ++ [report] }
    (if sett.logInterval = some 0 then flush st2 sett faults now else st2,
     some report)

/-- The operations an external caller can perform on the S4 logger:
a Log call, a Flush call, or a rotation, each under the module globals
in effect at that moment. -/
inductive Op where
  | log (sett : Settings) (message : List Char) (level : LogLevels)
      (group owner : Option (List Char)) (logStack : Bool)
      (exception currentException : Option (List Char))
      (now stacktrace : List Char) (faults : Nat → Bool)
  | flush (sett : Settings) (faults : Nat → Bool) (now : List Char)
  | changeLog

/-- One step of the S4 logger. -/
def step (st : St) : Op → St × Option Report
  | Op.log sett msg lvl grp own ls exc cur now stk faults =>
      logCall st sett msg lvl grp own ls exc cur now stk faults
  | Op.flush sett faults now => (flush st sett faults now, none)
  | Op.changeLog => (changeLogFileOp st, none)

/-- Running a sequence of operations, collecting the sequence numbers of
the records that get created, in order. -/
def run : St → List Op → St × List Nat
  | st, [] => (st, [])
  | st, op :: ops =>
      ((run (step st op).1 ops).1,
        (match (step st op).2 with | some r => [r.logNumber] | none => [])
          ++ (run (step st op).1 ops).2)

/-- The logger's state at construction. -/
def initSt : St :=
  { writeFailureCount := 0, logCount := 0, reportStorage := [],
    loggingDirectoryName := "start", isContinuation := false,
    sessionInfo := mkSessionInfo false, modsInfo := mkModsInfo,
    shownWriteFailureNotification := false, fs := [], attemptIdx := 0,
    events := [], nameSupply := ["rotated1", "rotated2", "rotated3"] }

/-- The sequence numbers created by an operation sequence on a fresh
S4 logger. -/
def createdNumbers (ops : List Op) : List Nat :=
  (run initSt ops).2

end S4

/-! ## The legacy flush engine

src/Python/NeonOcean.Debug/NeonOcean/Debug/Logging.py. -/

namespace Legacy

/-- LoggingShared.LoggingModes of the legacy variant. -/
inductive LoggingModes where
  | Burst
  | Continuous
deriving DecidableEq, Repr

/-- The module-global settings of the legacy variant.  The mode and level
globals are modelled as already-parsed values (set by _UpdateSettings
before any mode-dependent code runs); modLoading, preload and exiting
model This.Mod.Loading, _preload and _exiting. -/
structure Settings where
  loggingEnabled : Option Bool
  loggingMode : LoggingModes
  writeChronological : Option Bool
  writeGroups : Option Bool
  burstLevel : LogLevels
  continuousLevel : LogLevels
  modLoading : Bool
  preload : Bool
  exiting : Bool

/-- The state of the legacy _Logger instance together with the filesystem
and the recorded effect trace. -/
structure St where
  writeFailureCount : Nat
  currentLogNumber : Nat
  reportStorage : List Report
  preloadReportStorage : List Report
  loggingDirectoryName : String
  isContinuation : Bool
  sessionInfo : List Char
  modsInfo : List Char
  shownWriteFailureNotification : Bool
  fs : FS
  attemptIdx : Nat
  events : List Event
  nameSupply : List String

/-- ChangeLogFile (lines 409-419): fresh directory name, continuation
flag, regenerated snapshots; the failure counter and the pending buffer
are untouched. -/
def changeLogFileOp (st : St) : St :=
  match st.nameSupply with
  | n :: rest =>
      { st with
          loggingDirectoryName := n
          nameSupply := rest
          isContinuation := true
          sessionInfo := S4.mkSessionInfo true
          modsInfo := S4.mkModsInfo
          events := st.events ++ [Event.changeLogFile] }
  | [] =>
      { st with
          loggingDirectoryName := st.loggingDirectoryName ++ "+"
          isContinuation := true
          sessionInfo := S4.mkSessionInfo true
          modsInfo := S4.mkModsInfo
          events := st.events ++ [Event.changeLogFile] }

/-- The guarded write procedure of LogAllReports (the try block,
lines 328-382): snapshot files (Session.txt and Mods.txt), the
chronological stream, then the group streams.  No size cap and no Latest
mirror exist in this variant. -/
def writeAllBody (sett : Settings) (dirName : String)
    (sessionInfo modsInfo : List Char) (fs : FS) (chronoBytes : Bytes)
    (groups : List (String × Bytes)) : Except PyError FS := do
  let logDirectory := pjoin loggingRoot dirName
  let groupsDir := pjoin logDirectory "Groups"
  let sessionPath := pjoin logDirectory "Session.txt"
  let modsPath := pjoin logDirectory "Mods.txt"
  let chronoPath := pjoin logDirectory "Log.xml"
  let fs1 := if fsExists fs sessionPath then fs else fsSet fs sessionPath (charsBytes sessionInfo)
  let fs2 := if fsExists fs1 modsPath then fs1 else fsSet fs1 modsPath (charsBytes modsInfo)
  let fs3 ←
    if truthy sett.writeChronological then
      match fsGet fs2 chronoPath with
      | none => pure (fsSet fs2 chronoPath (firstWriteFile logStartBytes logEndBytes chronoBytes))
      | some f =>
          if verifyLogFile logStartBytes logEndBytes f then
            pure (fsSet fs2 chronoPath (spliceAppend logEndBytes sepBytes chronoBytes f))
          else throw PyError.verifyFailed
    else pure fs2
  groups.foldlM
    (fun acc entry =>
      if truthy sett.writeGroups then
        let gPath := pjoin groupsDir (entry.1 ++ ".xml")
        match fsGet acc gPath with
        | none => Except.ok (fsSet acc gPath (firstWriteFile logStartBytes logEndBytes entry.2))
        | some gf =>
            if verifyLogFile logStartBytes logEndBytes gf then
              Except.ok (fsSet acc gPath (spliceAppend logEndBytes sepBytes entry.2 gf))
            else Except.error PyError.verifyFailed
      else Except.ok acc)
    fs3

/-- The guarded write procedure of LogReport (the try block,
lines 226-279), writing a single report rendered without a write time.
The source verifies the chronological file — not the group file — before
a group splice (line 268); this is reproduced faithfully. -/
def writeOneBody (sett : Settings) (dirName : String)
    (sessionInfo modsInfo : List Char) (fs : FS) (report : Report) :
    Except PyError FS := do
  let logDirectory := pjoin loggingRoot dirName
  let groupsDir := pjoin logDirectory "Groups"
  let sessionPath := pjoin logDirectory "Session.txt"
  let modsPath := pjoin logDirectory "Mods.txt"
  let chronoPath := pjoin logDirectory "Log.xml"
  let logTextBytes := reportBytes report none
  let fs1 := if fsExists fs sessionPath then fs else fsSet fs sessionPath (charsBytes sessionInfo)
  let fs2 := if fsExists fs1 modsPath then fs1 else fsSet fs1 modsPath (charsBytes modsInfo)
  let fs3 ←
    if truthy sett.writeChronological then
      match fsGet fs2 chronoPath with
      | none => pure (fsSet fs2 chronoPath (firstWriteFile logStartBytes logEndBytes logTextBytes))
      | some f =>
          if verifyLogFile logStartBytes logEndBytes f then
            pure (fsSet fs2 chronoPath (spliceAppend logEndBytes sepBytes logTextBytes f))
          else throw PyError.verifyFailed
    else pure fs2
  if truthy sett.writeGroups then
    let gPath := pjoin groupsDir (String.mk report.group ++ ".xml")
    match fsGet fs3 gPath with
    | none => pure (fsSet fs3 gPath (firstWriteFile logStartBytes logEndBytes logTextBytes))
    | some gf =>
        match fsGet fs3 chronoPath with
        | none => throw PyError.missingFile
        | some cf =>
            if verifyLogFile logStartBytes logEndBytes cf then
              pure (fsSet fs3 gPath (spliceAppend logEndBytes sepBytes logTextBytes gf))
            else throw PyError.verifyFailed
  else pure fs3

/-- Entering a guarded write procedure: record the attempt. -/
def recordAttempt (st : St) : St :=
  { st with
      events := st.events ++ [Event.writeAttempt]
      attemptIdx := st.attemptIdx + 1 }

/-- self._writeFailureCount += 1 (lines 281, 384). -/
def recordFailure (st : St) : St :=
  { st with writeFailureCount := st.writeFailureCount + 1 }

/-- The one-time write-failure notification (lines 283-285, 386-388). -/
def maybeNotify (st : St) : St :=
  if ¬ st.shownWriteFailureNotification then
    { st with
        shownWriteFailureNotification := true
        events := st.events ++ [Event.notification] }
  else st

/-- The outcome of one entry into LogReport's guarded write. -/
def oneAttemptOutcome (st : St) (sett : Settings) (report : Report)
    (faults : Nat → Bool) : Except PyError FS :=
  if faults st.attemptIdx then Except.error PyError.injected
  else writeOneBody sett st.loggingDirectoryName st.sessionInfo st.modsInfo st.fs report

/-- One attempt of LogReport (lines 217-295): guards, the guarded write
and the except clause.  The boolean result reports whether the failure
handler rotated and requested the single retry. -/
def logReportStep (st : St) (sett : Settings) (report : Report)
    (faults : Nat → Bool) : St × Bool :=
  if ¬ truthy sett.writeChronological ∧ ¬ truthy sett.writeGroups then (st, false)
  else
    match oneAttemptOutcome st sett report faults with
    | Except.ok fs2 => ({ recordAttempt st with fs := fs2 }, false)
    | Except.error _ =>
        if (maybeNotify (recordFailure (recordAttempt st))).writeFailureCount <
            writeFailureLimit then
          (changeLogFileOp (maybeNotify (recordFailure (recordAttempt st))), true)
        else (maybeNotify (recordFailure (recordAttempt st)), false)

/-- LogReport with its default retryOnError=True: a rotation-triggering
failure is retried exactly once with retryOnError=False (the second
attempt's retry request is discarded, line 293). -/
def logReport (st : St) (sett : Settings) (report : Report)
    (faults : Nat → Bool) : St :=
  let s := logReportStep st sett report faults
  if s.2 then (logReportStep s.1 sett report faults).1 else s.1

/-- The outcome of one entry into LogAllReports' guarded write. -/
def allAttemptOutcome (st : St) (sett : Settings) (reports : List Report)
    (faults : Nat → Bool) (now : List Char) : Except PyError FS :=
  if faults st.attemptIdx then Except.error PyError.injected
  else
    writeAllBody sett st.loggingDirectoryName st.sessionInfo st.modsInfo st.fs
      (S4.renderBatch (truthy sett.writeChronological) (truthy sett.writeGroups) now reports).1
      (S4.renderBatch (truthy sett.writeChronological) (truthy sett.writeGroups) now reports).2

/-- One attempt of LogAllReports (lines 297-398): guards, rendering, the
guarded write and the except clause. -/
def logAllReportsStep (st : St) (sett : Settings) (reports : List Report)
    (faults : Nat → Bool) (now : List Char) : St × Bool :=
  if ¬ truthy sett.writeChronological ∧ ¬ truthy sett.writeGroups then (st, false)
  else if reports.length = 0 then (st, false)
  else
    match allAttemptOutcome st sett reports faults now with
    | Except.ok fs2 => ({ recordAttempt st with fs := fs2 }, false)
    | Except.error _ =>
        if (maybeNotify (recordFailure (recordAttempt st))).writeFailureCount <
            writeFailureLimit then
          (changeLogFileOp (maybeNotify (recordFailure (recordAttempt st))), true)
        else (maybeNotify (recordFailure (recordAttempt st)), false)

/-- LogAllReports with its default retryOnError=True (line 396): the
entire batch is retried exactly once. -/
def logAllReports (st : St) (sett : Settings) (reports : List Report)
    (faults : Nat → Bool) (now : List Char) : St :=
  let s := logAllReportsStep st sett reports faults now
  if s.2 then (logAllReportsStep s.1 sett reports faults now).1 else s.1

/-- _Logger.Flush (lines 192-196): write the pending list when logging is
enabled, then clear it unconditionally. -/
def flush (st : St) (sett : Settings) (faults : Nat → Bool) (now : List Char) : St :=
  let st2 :=
    if truthy sett.loggingEnabled then logAllReports st sett st.reportStorage faults now
    else st
  { st2 with reportStorage := [] }

/-- The _Report constructed by the legacy Log (line 167): 0-based number
(CurrentLogNumber before its increment), str(group). -/
def newReport (st : St) (message : List Char) (level : LogLevels)
    (group owner : Option (List Char)) (logStack : Bool)
    (exception : Option (List Char)) (now stacktrace : List Char) : Report :=
  { logNumber := st.currentLogNumber
    logTime := now
    message := message
    level := level
    group := (match group with | none => "None".data | some g => g)
    owner := owner
    exceptionText := exception
    logStack := logStack
    stacktrace := stacktrace
    retryOnError := true }

/-- The mode-dependent level filter of the legacy Log (lines 174-179). -/
def modeFilteredOut (sett : Settings) (level : LogLevels) : Bool :=
  match sett.loggingMode with
  | LoggingModes.Burst => decide (level.toNat > sett.burstLevel.toNat)
  | LoggingModes.Continuous => decide (level.toNat > sett.continuousLevel.toNat)

/-- The state transition of a non-dropped legacy Log call after the
record's creation (lines 181-190): optional immediate write when
exiting, then the burst/continuous mode dispatch. -/
def afterCreate (st1 : St) (sett : Settings) (report : Report)
    (level : LogLevels) (faults : Nat → Bool) (now : List Char) : St :=
  let st2 : St := if sett.exiting then logReport st1 sett report faults else st1
  match sett.loggingMode with
  | LoggingModes.Burst =>
      let st3 : St := { st2 with reportStorage := st2.reportStorage ++ [report] }
      if level.toNat ≤ LogLevels.Error.toNat then flush st3 sett faults now else st3
  | LoggingModes.Continuous => logReport st2 sett report faults

/-- _Logger.Log of the legacy variant (lines 157-190).  The record is
constructed with the pre-increment CurrentLogNumber.  A record queued
while preloading goes to the preload list; a filtered record is dropped
after creation; when exiting, the record is written immediately in
addition to the mode dispatch; burst mode queues it (flushing at Error
severity or worse), continuous mode writes it immediately. -/
def logCall (st : St) (sett : Settings) (message : List Char)
    (level : LogLevels) (group owner : Option (List Char)) (logStack : Bool)
    (exception : Option (List Char)) (now stacktrace : List Char)
    (faults : Nat → Bool) : St × Option Report :=
  if st.writeFailureCount ≥ writeFailureLimit then (st, none)
  else if sett.loggingEnabled = some false then (st, none)
  else if sett.modLoading && sett.preload then
    (let report := newReport st message level group owner logStack exception now stacktrace
     let st1 : St := { st with currentLogNumber := st.currentLogNumber + 1 }
     { st1 with preloadReportStorage := st1.preloadReportStorage ++ [report] },
     some (newReport st message level group owner logStack exception now stacktrace))
  else if modeFilteredOut sett level then
    ({ st with currentLogNumber := st.currentLogNumber + 1 },
     some (newReport st message level group owner logStack exception now stacktrace))
  else
    (afterCreate { st with currentLogNumber := st.currentLogNumber + 1 } sett
       (newReport st message level group owner logStack exception now stacktrace)
       level faults now,
     some (newReport st message level group owner logStack exception now stacktrace))

/-- The operations an external caller can perform on the legacy logger. -/
inductive Op where
  | log (sett : Settings) (message : List Char) (level : LogLevels)
      (group owner : Option (List Char)) (logStack : Bool)
      (exception : Option (List Char)) (now stacktrace : List Char)
      (faults : Nat → Bool)
  | flush (sett : Settings) (faults : Nat → Bool) (now : List Char)
  | changeLog

/-- One step of the legacy logger. -/
def step (st : St) : Op → St × Option Report
  | Op.log sett msg lvl grp own ls exc now stk faults =>
      logCall st sett msg lvl grp own ls exc now stk faults
  | Op.flush sett faults now => (flush st sett faults now, none)
  | Op.changeLog => (changeLogFileOp st, none)

/-- Running a sequence of operations, collecting the sequence numbers of
the records that get created, in order. -/
def run : St → List Op → St × List Nat
  | st, [] => (st, [])
  | st, op :: ops =>
      ((run (step st op).1 ops).1,
        (match (step st op).2 with | some r => [r.logNumber] | none => [])
          ++ (run (step st op).1 ops).2)

/-- The logger's state at construction (CurrentLogNumber = 0). -/
def initSt : St :=
  { writeFailureCount := 0, currentLogNumber := 0, reportStorage := [],
    preloadReportStorage := [], loggingDirectoryName := "start",
    isContinuation := false, sessionInfo := S4.mkSessionInfo false,
    modsInfo := S4.mkModsInfo, shownWriteFailureNotification := false,
    fs := [], attemptIdx := 0, events := [],
    nameSupply := ["rotated1", "rotated2", "rotated3"] }

/-- The sequence numbers created by an operation sequence on a fresh
legacy logger. -/
def createdNumbers (ops : List Op) : List Nat :=
  (run initSt ops).2

end Legacy

namespace S4

/-- The directory-collection loop of GetLogFilesToBeReported
(lines 116-132): walk the reversed listing, stop once 10 directories are
collected, skip non-directories and names that do not parse as a
timestamp. -/
def collectReportDirs (isDir validName : String → Bool) :
    List String → List String → List String
  | [], acc => acc
  | name :: rest, acc =>
      if 10 ≤ acc.length then acc
      else
        let p := pjoin loggingRoot name
        if ¬ isDir p then collectReportDirs isDir validName rest acc
        else if ¬ validName name then collectReportDirs isDir validName rest acc
        else collectReportDirs isDir validName rest (acc ++ [p])

/-- _Logger.GetLogFilesToBeReported (lines 100-150).  listing models
os.listdir of the logging root; isDir models os.path.isdir and validName
the strptime check on the directory name (both external filesystem and
parsing facts).  Note the file names probed per directory: Log.xml,
Session.json and Mods.txt. -/
def getLogFilesToBeReported (fs : FS) (listing : List String)
    (isDir validName : String → Bool) : List String :=
  let latestPath := pjoin loggingRoot "Latest.xml"
  let initial := if fsExists fs latestPath then [latestPath] else []
  let dirs := collectReportDirs isDir validName listing.reverse []
  initial ++ dirs.flatMap (fun d =>
    (if fsExists fs (pjoin d "Log.xml") then [pjoin d "Log.xml"] else [])
      ++ (if fsExists fs (pjoin d "Session.json") then [pjoin d "Session.json"] else [])
      ++ (if fsExists fs (pjoin d "Mods.txt") then [pjoin d "Mods.txt"] else []))

end S4

/-! ## Concrete inputs used by the witnesses and counterexamples -/

/-- A record at Error level carrying a supplied exception (claim C4). -/
def c4Record : Report :=
  { logNumber := 1, logTime := "t".data, message := "m".data,
    level := LogLevels.Error, group := "A".data, owner := none,
    exceptionText := some "boom".data, logStack := false,
    stacktrace := "s".data, retryOnError := true }

/-- A record at Exception level (claim C4 witness). -/
def c4ExcRecord : Report :=
  { logNumber := 2, logTime := "t".data, message := "m".data,
    level := LogLevels.Exception, group := "A".data, owner := none,
    exceptionText := none, logStack := false,
    stacktrace := "s".data, retryOnError := true }

/-- Legacy settings: logging enabled, burst mode, chronological on. -/
def burstSett : Legacy.Settings :=
  { loggingEnabled := some true, loggingMode := Legacy.LoggingModes.Burst,
    writeChronological := some true, writeGroups := some false,
    burstLevel := LogLevels.Debug, continuousLevel := LogLevels.Debug,
    modLoading := false, preload := false, exiting := false }

/-- Legacy settings: logging enabled, continuous mode, chronological on. -/
def contSett : Legacy.Settings :=
  { burstSett with loggingMode := Legacy.LoggingModes.Continuous }

/-- A burst-mode Warning log call (queued, not flushed). -/
def c2Op1 : Legacy.Op :=
  Legacy.Op.log burstSett "a".data LogLevels.Warning (some "G".data) none false
    none "t1".data "s".data (fun _ => true)

/-- A continuous-mode Error log call under an always-failing filesystem:
its immediate write fails twice and poisons the logger. -/
def c2Op2 : Legacy.Op :=
  Legacy.Op.log contSett "b".data LogLevels.Error (some "G".data) none false
    none "t2".data "s".data (fun _ => true)

/-- A Flush call after the logger was poisoned. -/
def c2Op3 : Legacy.Op :=
  Legacy.Op.flush burstSett (fun _ => true) "t3".data

/-- A single burst-mode log call on a fresh legacy logger (claim C1). -/
def c1Op : Legacy.Op :=
  Legacy.Op.log burstSett "a".data LogLevels.Warning (some "G".data) none false
    none "t".data "s".data (fun _ => false)

/-- A group file as created by a first write with an empty payload
(claim C7): 60 bytes. -/
def c7GroupFile : Bytes := firstWriteFile logStartBytes logEndBytes []

/-- A chronological file of 100 bytes (claim C7). -/
def c7ChronoFile : Bytes :=
  firstWriteFile logStartBytes logEndBytes (List.replicate 40 65)

/-- A filesystem holding the group file of group A and the chronological
file (claim C7). -/
def c7FS : FS := [("G/A.xml", c7GroupFile), ("C", c7ChronoFile)]

/-- S4 settings: enabled, chronological on, groups off, unlimited size. -/
def c9Sett : S4.Settings :=
  { loggingEnabled := some true, writeChronological := some true,
    writeGroups := some false, logLevel := none, logInterval := none,
    logSizeLimit := -1 }

/-- A timestamp-shaped log directory name (claim C9). -/
def c9Dir : String := "2020-01-01 00.00.00.000000"

/-- S4 settings for the claim C8 and C10 witnesses: enabled,
chronological on, no filtering, interval-batched. -/
def c8Sett : S4.Settings :=
  { loggingEnabled := some true, writeChronological := some true,
    writeGroups := some false, logLevel := none, logInterval := some 1,
    logSizeLimit := -1 }

/-- A report for the claim C8 witness. -/
def c8Report : Report :=
  { logNumber := 1, logTime := "t".data, message := "m".data,
    level := LogLevels.Info, group := "G".data, owner := none,
    exceptionText := none, logStack := false, stacktrace := "s".data,
    retryOnError := true }

/-- Legacy settings with logging disabled (claim C5 witness). -/
def c5Sett : Legacy.Settings :=
  { burstSett with loggingEnabled := some false }

/-- The record created by the claim C10 witness call. -/
def c10Report : Report :=
  S4.newReport S4.initSt "m".data LogLevels.Info none none false none
    (some "cur".data) "t".data "s".data

/-! ## Lemmas and claim theorems -/

theorem startsWith_append {α : Type} [DecidableEq α] (pat rest : List α) :
    startsWith pat (pat ++ rest) = true := by
  induction pat with
  | nil => rfl
  | cons p ps ih => simp [startsWith, ih]

theorem containsSeq_append_left {α : Type} [DecidableEq α]
    (pat pre l : List α) (h : containsSeq pat l = true) :
    containsSeq pat (pre ++ l) = true := by
  induction pre with
  | nil => simpa using h
  | cons c cs ih =>
    show (startsWith pat (c :: (cs ++ l)) || containsSeq pat (cs ++ l)) = true
    rw [ih]
    simp

theorem containsSeq_here {α : Type} [DecidableEq α] (pat rest : List α)
    (hpat : pat ≠ []) :
    containsSeq pat (pat ++ rest) = true := by
  cases pat with
  | nil => exact absurd rfl hpat
  | cons p ps =>
    show (startsWith (p :: ps) (p :: (ps ++ rest)) || containsSeq (p :: ps) (ps ++ rest)) = true
    rw [show startsWith (p :: ps) (p :: (ps ++ rest)) = true from startsWith_append (p :: ps) rest]
    simp

theorem containsSeq_of_middle {α : Type} [DecidableEq α]
    (pat pre post : List α) (hpat : pat ≠ []) :
    containsSeq pat (pre ++ pat ++ post) = true := by
  rw [List.append_assoc]
  exact containsSeq_append_left pat pre _ (containsSeq_here pat post hpat)

theorem verifyLogFile_of_shape (startB endB mid : Bytes) :
    verifyLogFile startB endB (startB ++ mid ++ endB) = true := by
  unfold verifyLogFile
  have h1 : (startB ++ mid ++ endB).take startB.length = startB := by
    rw [List.append_assoc, List.take_left]
  have h2 : (startB ++ mid ++ endB).drop ((startB ++ mid ++ endB).length - endB.length) = endB := by
    have hlen : (startB ++ mid ++ endB).length - endB.length = (startB ++ mid).length := by
      simp only [List.length_append]
      omega
    rw [hlen, List.append_assoc, ← List.append_assoc, List.drop_left]
  rw [h1, h2]
  simp

theorem spliceAppend_shape (startB endB sep payload mid : Bytes) :
    spliceAppend endB sep payload (startB ++ mid ++ endB) =
      startB ++ (mid ++ sep ++ payload) ++ endB := by
  unfold spliceAppend
  have hlen : (startB ++ mid ++ endB).length - endB.length = (startB ++ mid).length := by
    simp only [List.length_append]
    omega
  rw [hlen]
  have htake : (startB ++ mid ++ endB).take (startB ++ mid).length = startB ++ mid := by
    rw [List.append_assoc, ← List.append_assoc, List.take_left]
  rw [htake]
  simp

/-! ## Generic occurrence lemmas for two-element patterns -/

theorem startsWith_trans {α : Type} [DecidableEq α] :
    ∀ {p q r : List α}, startsWith p q = true → startsWith q r = true →
      startsWith p r = true := by
  intro p
  induction p with
  | nil => intro q r _ _; rfl
  | cons a as ih =>
    intro q r h1 h2
    cases q with
    | nil => simp [startsWith] at h1
    | cons b bs =>
      cases r with
      | nil => simp [startsWith] at h2
      | cons c cs =>
        simp only [startsWith, Bool.and_eq_true, decide_eq_true_eq] at h1 h2 ⊢
        exact ⟨h1.1.trans h2.1, ih h1.2 h2.2⟩

theorem startsWith_extend {α : Type} [DecidableEq α] :
    ∀ {p l : List α} (t : List α), startsWith p l = true → startsWith p (l ++ t) = true := by
  intro p
  induction p with
  | nil => intro l t _; rfl
  | cons a as ih =>
    intro l t h
    cases l with
    | nil => simp [startsWith] at h
    | cons c cs =>
      simp only [List.cons_append, startsWith, Bool.and_eq_true] at h ⊢
      exact ⟨h.1, ih t h.2⟩

theorem containsSeq_append_right {α : Type} [DecidableEq α] :
    ∀ {a : List α} (b : List α) {pat : List α}, containsSeq pat a = true →
      containsSeq pat (a ++ b) = true := by
  intro a
  induction a with
  | nil =>
    intro b pat h
    cases pat with
    | nil =>
      cases b with
      | nil => rfl
      | cons c cs => simp [containsSeq, startsWith]
    | cons p ps => simp [containsSeq, startsWith] at h
  | cons c cs ih =>
    intro b pat h
    show (startsWith pat (c :: (cs ++ b)) || containsSeq pat (cs ++ b)) = true
    have h2 : (startsWith pat (c :: cs) || containsSeq pat cs) = true := h
    rcases Bool.or_eq_true_iff.mp h2 with h3 | h3
    · have := startsWith_extend (p := pat) (l := c :: cs) b h3
      simp only [List.cons_append] at this
      rw [this]
      simp
    · rw [ih b h3]
      simp

theorem containsSeq_mono {α : Type} [DecidableEq α] {p q : List α}
    (hpq : startsWith p q = true) :
    ∀ {l : List α}, containsSeq q l = true → containsSeq p l = true := by
  intro l
  induction l with
  | nil =>
    intro h
    cases q with
    | nil =>
      cases p with
      | nil => rfl
      | cons a as => simp [startsWith] at hpq
    | cons b bs => simp [containsSeq, startsWith] at h
  | cons c cs ih =>
    intro h
    have h2 : (startsWith q (c :: cs) || containsSeq q cs) = true := h
    show (startsWith p (c :: cs) || containsSeq p cs) = true
    rcases Bool.or_eq_true_iff.mp h2 with h3 | h3
    · rw [startsWith_trans hpq h3]
      simp
    · rw [ih h3]
      simp

theorem containsSeq_pair_singleton {α : Type} [DecidableEq α] (x y c : α) :
    containsSeq [x, y] [c] = false := by
  simp [containsSeq, startsWith]

/-- Appending two lists neither of which contains the two-element pattern
x,y yields a list without the pattern, provided the pattern does not form
at the junction. -/
theorem containsSeq_pair_append {α : Type} [DecidableEq α] (x y : α) :
    ∀ (a b : List α), containsSeq [x, y] a = false → containsSeq [x, y] b = false →
      (a.getLast? ≠ some x ∨ b.head? ≠ some y) →
      containsSeq [x, y] (a ++ b) = false := by
  intro a
  induction a with
  | nil => intro b _ hb _; simpa using hb
  | cons c cs ih =>
    intro b ha hb hj
    have ha2 : (startsWith [x, y] (c :: cs) || containsSeq [x, y] cs) = false := ha
    rw [Bool.or_eq_false_iff] at ha2
    show (startsWith [x, y] (c :: (cs ++ b)) || containsSeq [x, y] (cs ++ b)) = false
    rw [Bool.or_eq_false_iff]
    constructor
    · cases cs with
      | nil =>
        simp only [List.nil_append]
        simp only [startsWith, Bool.and_eq_false_iff]
        rcases hj with hj | hj
        · left
          simp only [List.getLast?_singleton] at hj
          simp only [decide_eq_false_iff_not]
          intro hxc
          exact hj (by rw [hxc])
        · right
          cases b with
          | nil => rfl
          | cons e es =>
            simp only [List.head?_cons] at hj
            simp only [startsWith, Bool.and_eq_false_iff, decide_eq_false_iff_not]
            left
            intro hye
            exact hj (by rw [hye])
      | cons d ds =>
        have hsw : startsWith [x, y] (c :: d :: ds) = false := ha2.1
        simp only [startsWith, Bool.and_eq_false_iff] at hsw ⊢
        rcases hsw with h | h
        · left; exact h
        · rcases h with h | h
          · right; left; exact h
          · simp at h
    · apply ih b ha2.2 hb
      cases cs with
      | nil =>
        left
        simp
      | cons d ds =>
        rcases hj with hj | hj
        · left
          rw [show ((c :: d :: ds : List α)) = [c] ++ (d :: ds) from rfl] at hj
          rwa [List.getLast?_append_of_ne_nil [c] (by simp)] at hj
        · right; exact hj

theorem containsSeq_pair_flatMap {α : Type} [DecidableEq α] (x y : α)
    (f : α → List α)
    (h1 : ∀ c, containsSeq [x, y] (f c) = false)
    (h2 : ∀ c, (f c).getLast? ≠ some x) :
    ∀ l : List α, containsSeq [x, y] (l.flatMap f) = false := by
  intro l
  induction l with
  | nil => rfl
  | cons c cs ih =>
    rw [show ((c :: cs : List α)) = [c] ++ cs from rfl, List.flatMap_append]
    have hfc : ([c] : List α).flatMap f = f c := by simp
    rw [hfc]
    exact containsSeq_pair_append x y (f c) (cs.flatMap f) (h1 c) ih (Or.inl (h2 c))

theorem containsSeq_pair_of_no_left {α : Type} [DecidableEq α] (x y : α) :
    ∀ l : List α, x ∉ l → containsSeq [x, y] l = false := by
  intro l
  induction l with
  | nil => intro _; rfl
  | cons c cs ih =>
    intro hmem
    show (startsWith [x, y] (c :: cs) || containsSeq [x, y] cs) = false
    rw [Bool.or_eq_false_iff]
    refine ⟨?_, ih (fun h => hmem (List.mem_cons_of_mem c h))⟩
    simp only [startsWith, Bool.and_eq_false_iff, decide_eq_false_iff_not]
    left
    intro hxc
    exact hmem (by rw [hxc]; exact List.mem_cons_self c cs)

theorem escapeText_eq (s : List Char) :
    escapeText s = (normNewlines s).flatMap renderChar := by
  unfold escapeText renderChar
  generalize normNewlines s = l
  induction l with
  | nil => rfl
  | cons c cs ih =>
    rw [show ((c :: cs : List Char)) = [c] ++ cs from rfl]
    rw [List.flatMap_append, List.flatMap_append, List.flatMap_append, ih]
    congr 1
    simp

theorem natDigitsAux_lt (fuel : Nat) :
    ∀ n d, d ∈ natDigitsAux fuel n → d < 10 := by
  induction fuel with
  | zero => intro n d h; simp [natDigitsAux] at h
  | succ f ih =>
    intro n d h
    unfold natDigitsAux at h
    split at h
    · simp at h
    · rcases List.mem_cons.mp h with h | h
      · rw [h]; exact Nat.mod_lt _ (by norm_num)
      · exact ih _ _ h

theorem renderChar_no_ltE (c : Char) :
    containsSeq ltE (renderChar c) = false ∧ (renderChar c).getLast? ≠ some '<' := by
  by_cases h1 : c = '&'
  · subst h1; constructor <;> decide
  by_cases h2 : c = '<'
  · subst h2; constructor <;> decide
  by_cases h3 : c = '>'
  · subst h3; constructor <;> decide
  by_cases h4 : c = '\n'
  · subst h4; constructor <;> decide
  have hrc : renderChar c = [c] := by
    unfold renderChar escapeChar
    rw [if_neg h1, if_neg h2, if_neg h3]
    simp [commentChar, h4]
  rw [hrc]
  refine ⟨containsSeq_pair_singleton _ _ _, ?_⟩
  simp only [List.getLast?_singleton, ne_eq, Option.some.injEq]
  exact h2

theorem escapeText_no_ltE (s : List Char) :
    containsSeq ltE (escapeText s) = false := by
  rw [escapeText_eq]
  exact containsSeq_pair_flatMap '<' 'E' renderChar
    (fun c => (renderChar_no_ltE c).1) (fun c => (renderChar_no_ltE c).2) _

theorem natToChars_no_lt_no_E (n : Nat) :
    '<' ∉ natToChars n ∧ 'E' ∉ natToChars n := by
  unfold natToChars
  split
  · constructor <;> decide
  · have hdig : ∀ d, d < 10 → Char.ofNat (48 + d) ≠ '<' ∧ Char.ofNat (48 + d) ≠ 'E' := by
      decide
    have hd : ∀ c ∈ (natDigitsAux n n).reverse.map (fun d => Char.ofNat (48 + d)),
        c ≠ '<' ∧ c ≠ 'E' := by
      intro c hc
      rcases List.mem_map.mp hc with ⟨d, hd1, hd2⟩
      have hdlt : d < 10 :=
        natDigitsAux_lt n n d (List.mem_reverse.mp hd1)
      rw [← hd2]
      exact hdig d hdlt
    constructor
    · intro hmem
      exact (hd _ hmem).1 rfl
    · intro hmem
      exact (hd _ hmem).2 rfl

theorem applyLinesep_eq_self (s : List Char) : applyLinesep s = s := by
  unfold applyLinesep
  induction s with
  | nil => rfl
  | cons c cs ih =>
    rw [show ((c :: cs : List Char)) = [c] ++ cs from rfl, List.flatMap_append, ih]
    congr 1
    simp only [List.flatMap_cons, List.flatMap_nil, List.append_nil]
    split
    · rename_i h; rw [h]; rfl
    · rfl

theorem noLtE_app {a b : List Char}
    (ha : containsSeq ltE a = false) (hb : containsSeq ltE b = false)
    (hj : a.getLast? ≠ some '<' ∨ b.head? ≠ some 'E') :
    containsSeq ltE (a ++ b) = false :=
  containsSeq_pair_append '<' 'E' a b ha hb hj

theorem head?_ne_of_not_mem {α : Type} {l : List α} {y : α} (h : y ∉ l) :
    l.head? ≠ some y := by
  cases l with
  | nil => simp
  | cons c cs =>
    simp only [List.head?_cons, ne_eq, Option.some.injEq]
    intro hy
    rw [hy] at h
    exact h (List.mem_cons_self _ _)

theorem levelName_no_ltE (lvl : LogLevels) :
    containsSeq ltE lvl.levelName = false := by
  cases lvl <;> decide

theorem level_le_exception_iff (lvl : LogLevels) :
    (lvl.toNat ≤ LogLevels.Exception.toNat) ↔ lvl = LogLevels.Exception := by
  cases lvl <;> simp [LogLevels.toNat]

theorem ownerBlock_no_ltE (o : Option (List Char))
    (ho : ∀ x, o = some x → containsSeq ltE x = false) :
    containsSeq ltE (ownerBlock o) = false ∧ (ownerBlock o).head? ≠ some 'E' := by
  cases o with
  | none => exact ⟨rfl, by simp [ownerBlock]⟩
  | some x =>
    constructor
    · refine noLtE_app (a := " Owner=\"".data ++ x)
        (noLtE_app (by decide) (ho x rfl) ?_) (by decide) (Or.inr (by decide))
      left
      decide
    · rw [show ownerBlock (some x) = " Owner=\"".data ++ x ++ "\"".data from rfl]
      simp [List.head?_append]

theorem writeTimeBlock_no_ltE (w : Option (List Char))
    (hw : ∀ x, w = some x → containsSeq ltE x = false) :
    containsSeq ltE (writeTimeBlock w) = false ∧ (writeTimeBlock w).head? ≠ some 'E' := by
  cases w with
  | none => exact ⟨rfl, by simp [writeTimeBlock]⟩
  | some x =>
    constructor
    · refine noLtE_app (a := " WriteTime=\"".data ++ x)
        (noLtE_app (by decide) (hw x rfl) ?_) (by decide) (Or.inr (by decide))
      left
      decide
    · rw [show writeTimeBlock (some x) = " WriteTime=\"".data ++ x ++ "\"".data from rfl]
      simp [List.head?_append]

theorem stacktraceBlock_no_ltE (r : Report) :
    containsSeq ltE (stacktraceBlock r) = false ∧
      (stacktraceBlock r).head? ≠ some 'E' := by
  unfold stacktraceBlock
  split
  · constructor
    · refine noLtE_app
        (noLtE_app (by decide) (escapeText_no_ltE r.stacktrace) (Or.inl (by decide)))
        (by decide) (Or.inr (by decide))
    · simp [List.head?_append]
  · exact ⟨rfl, by simp⟩

theorem exceptionBlock_of_ne (r : Report) (hlvl : r.level ≠ LogLevels.Exception) :
    exceptionBlock r = [] := by
  unfold exceptionBlock
  rw [if_neg]
  intro h
  exact hlvl ((level_le_exception_iff r.level).mp h)

/-- When the record's level is not the Exception level, the rendered block
contains no occurrence of a left angle bracket immediately followed by E
(given that the free-form header fields do not themselves contain one). -/
theorem getTextRaw_no_ltE (r : Report) (wt : Option (List Char))
    (hlvl : r.level ≠ LogLevels.Exception)
    (hg : containsSeq ltE r.group = false)
    (ho : ∀ o, r.owner = some o → containsSeq ltE o = false)
    (ht : containsSeq ltE r.logTime = false)
    (hw : ∀ w, wt = some w → containsSeq ltE w = false) :
    containsSeq ltE (getTextRaw r wt) = false := by
  unfold getTextRaw
  have h2 := noLtE_app (a := "\t<Log Number=\"".data) (by decide)
    (containsSeq_pair_of_no_left '<' 'E' _ (natToChars_no_lt_no_E r.logNumber).1)
    (Or.inr (head?_ne_of_not_mem (natToChars_no_lt_no_E r.logNumber).2))
  have h3 := noLtE_app h2 (by decide : containsSeq ltE "\" Level=\"".data = false)
    (Or.inr (by decide))
  have h4 := noLtE_app h3 (levelName_no_ltE r.level)
    (Or.inl (by rw [List.getLast?_append_of_ne_nil _ (by decide)]; decide))
  have h5 := noLtE_app h4 (by decide : containsSeq ltE "\" Group=\"".data = false)
    (Or.inr (by decide))
  have h6 := noLtE_app h5 hg
    (Or.inl (by rw [List.getLast?_append_of_ne_nil _ (by decide)]; decide))
  have h7 := noLtE_app h6 (by decide : containsSeq ltE "\"".data = false)
    (Or.inr (by decide))
  have h8 := noLtE_app h7 (ownerBlock_no_ltE r.owner ho).1
    (Or.inr (ownerBlock_no_ltE r.owner ho).2)
  have h9 := noLtE_app h8 (by decide : containsSeq ltE " LogTime=\"".data = false)
    (Or.inr (by decide))
  have h10 := noLtE_app h9 ht
    (Or.inl (by rw [List.getLast?_append_of_ne_nil _ (by decide)]; decide))
  have h11 := noLtE_app h10 (by decide : containsSeq ltE "\"".data = false)
    (Or.inr (by decide))
  have h12 := noLtE_app h11 (writeTimeBlock_no_ltE wt hw).1
    (Or.inr (writeTimeBlock_no_ltE wt hw).2)
  have h13 := noLtE_app h12
    (by decide : containsSeq ltE ">\n\t\t<Message><!--\n\t\t\t-->".data = false)
    (Or.inr (by decide))
  have h14 := noLtE_app h13 (escapeText_no_ltE r.message)
    (Or.inl (by rw [List.getLast?_append_of_ne_nil _ (by decide)]; decide))
  have h15 := noLtE_app h14
    (by decide : containsSeq ltE "<!--\n\t\t--></Message>\n".data = false)
    (Or.inr (by decide))
  rw [exceptionBlock_of_ne r hlvl, List.append_nil]
  exact noLtE_app
    (noLtE_app h15 (stacktraceBlock_no_ltE r).1 (Or.inr (stacktraceBlock_no_ltE r).2))
    (by decide : containsSeq ltE "\t</Log>".data = false) (Or.inr (by decide))

/-- When the record's level is the Exception level, the rendered block
contains the Exception opening tag. -/
theorem getTextRaw_has_exception_tag (r : Report) (wt : Option (List Char))
    (hlvl : r.level = LogLevels.Exception) :
    containsSeq "<Exception>".data (getTextRaw r wt) = true := by
  unfold getTextRaw
  apply containsSeq_append_right
  apply containsSeq_append_right
  apply containsSeq_append_left
  unfold exceptionBlock
  rw [if_pos ((level_le_exception_iff r.level).mpr hlvl)]
  apply containsSeq_append_right
  apply containsSeq_append_right
  rw [show ("\t\t<Exception><!--\n\t\t\t-->".data : List Char) =
        "\t\t".data ++ "<Exception>".data ++ "<!--\n\t\t\t-->".data from rfl]
  exact containsSeq_of_middle _ _ _ (by decide)

/-! ## Claim theorems -/

theorem foldSplice_shape (appends : List Bytes) :
    ∀ (startB endB sep mid : Bytes),
      ∃ rest,
        appends.foldl (fun f q => spliceAppend endB sep q f) (startB ++ mid ++ endB) =
          startB ++ (mid ++ rest) ++ endB := by
  induction appends with
  | nil => intro s e sep mid; exact ⟨[], by simp⟩
  | cons q qs ih =>
    intro s e sep mid
    rw [List.foldl_cons, spliceAppend_shape]
    rcases ih s e sep (mid ++ sep ++ q) with ⟨rest, hrest⟩
    refine ⟨sep ++ q ++ rest, ?_⟩
    rw [hrest]
    simp [List.append_assoc]

/-- C3: a file created by a first write passes _VerifyLogFile; after any
number of splice-appends it still passes, the start and end marker bytes
are unchanged and only the interior grows (the original payload remains a
prefix of the interior). -/
theorem c3_round_trip_integrity (p : Bytes) (appends : List Bytes) :
    verifyLogFile logStartBytes logEndBytes (firstWriteFile logStartBytes logEndBytes p) = true ∧
    ∃ rest,
      appends.foldl (fun f q => spliceAppend logEndBytes sepBytes q f)
          (firstWriteFile logStartBytes logEndBytes p) =
        logStartBytes ++ (p ++ rest) ++ logEndBytes ∧
      verifyLogFile logStartBytes logEndBytes
        (appends.foldl (fun f q => spliceAppend logEndBytes sepBytes q f)
          (firstWriteFile logStartBytes logEndBytes p)) = true := by
  refine ⟨verifyLogFile_of_shape _ _ _, ?_⟩
  rcases foldSplice_shape appends logStartBytes logEndBytes sepBytes p with ⟨rest, h⟩
  refine ⟨rest, h, ?_⟩
  show verifyLogFile logStartBytes logEndBytes
      (appends.foldl (fun f q => spliceAppend logEndBytes sepBytes q f)
        (logStartBytes ++ p ++ logEndBytes)) = true
  rw [h]
  exact verifyLogFile_of_shape _ _ _

/-- C5: after every Flush the pending list is empty; with logging
disabled the pending records are discarded with no other state change
(no write attempt, no filesystem change). -/
theorem c5_flush_clears (st : Legacy.St) (sett : Legacy.Settings)
    (faults : Nat → Bool) (now : List Char) :
    (Legacy.flush st sett faults now).reportStorage = [] ∧
    (truthy sett.loggingEnabled = false →
      Legacy.flush st sett faults now = { st with reportStorage := [] }) := by
  constructor
  · rfl
  · intro h
    unfold Legacy.flush
    simp [h]

/-- C5 witness: the theorem applied to a fresh logger with logging
disabled. -/
theorem c5_witness :
    (Legacy.flush Legacy.initSt c5Sett (fun _ => true) "t".data).reportStorage = [] ∧
    Legacy.flush Legacy.initSt c5Sett (fun _ => true) "t".data =
      { Legacy.initSt with reportStorage := [] } :=
  ⟨(c5_flush_clears Legacy.initSt c5Sett (fun _ => true) "t".data).1,
   (c5_flush_clears Legacy.initSt c5Sett (fun _ => true) "t".data).2 (by decide)⟩

/-- C1 counterexample: on a fresh legacy logger the first created record
carries sequence number 0, not 1. -/
theorem c1_counterexample : Legacy.createdNumbers [c1Op] = [0] := by decide

/-- C4 counterexample: a record at Error level with a supplied exception
renders without any Exception section. -/
theorem c4_counterexample :
    c4Record.exceptionText.isSome = true ∧
    containsSeq "<Exception>".data (GetText c4Record none) = false := by
  constructor
  · rfl
  · decide

/-- C7: the group-stream cap at the failing input.  A group file of 60
bytes under an 80-byte cap is not appended to — the file whose size the
code compares against the cap is the chronological file (100 bytes) —
and at limit 0 a group first write raises TypeError (the notice is added
to the group dict) instead of writing a notice-bearing file. -/
theorem c7_failing_input :
    S4.groupStep 80 1 true "G" "C" c7FS ("A", [67, 67]) = Except.ok c7FS ∧
    c7GroupFile.length + sepBytes.length + ([67, 67] : Bytes).length + logEndBytes.length < 80 ∧
    (80 : Int) ≤ c7ChronoFile.length ∧
    S4.groupStep 0 1 true "G" "C" [("C", c7ChronoFile)] ("A", [67, 67]) =
      Except.error PyError.typeFault := by
  refine ⟨rfl, by decide, by decide, rfl⟩

/-- C9: evaluating the reporting accessor on the very directory the S4
flush engine writes.  The write creates Session.txt and
Mods Directory.txt, but the accessor only probes Session.json and
Mods.txt, so the returned list holds only the Latest mirror and the
chronological file. -/
theorem c9_failing_input :
    ∃ fs2,
      S4.writeBody c9Sett c9Dir (S4.mkSessionInfo false) S4.mkModsInfo [] [65] [] =
        Except.ok fs2 ∧
      fsExists fs2 (pjoin (pjoin loggingRoot c9Dir) "Session.txt") = true ∧
      fsExists fs2 (pjoin (pjoin loggingRoot c9Dir) "Mods Directory.txt") = true ∧
      S4.getLogFilesToBeReported fs2 [c9Dir] (fun _ => true) (fun _ => true) =
        [pjoin loggingRoot "Latest.xml", pjoin (pjoin loggingRoot c9Dir) "Log.xml"] := by
  refine ⟨_, rfl, ?_, ?_, ?_⟩ <;> decide

/-- C4 (amended): the Exception section of a rendered record is present
exactly when the record's level is the Exception level (independently of
whether an exception was supplied), provided the free-form header fields
carry no left angle bracket immediately followed by E themselves. -/
theorem c4_exception_section_iff (r : Report) (wt : Option (List Char))
    (hg : containsSeq ltE r.group = false)
    (ho : ∀ o, r.owner = some o → containsSeq ltE o = false)
    (ht : containsSeq ltE r.logTime = false)
    (hw : ∀ w, wt = some w → containsSeq ltE w = false) :
    containsSeq "<Exception>".data (GetText r wt) = true ↔
      r.level = LogLevels.Exception := by
  rw [show GetText r wt = getTextRaw r wt from applyLinesep_eq_self _]
  constructor
  · intro h
    by_contra hne
    have h2 : containsSeq ltE (getTextRaw r wt) = true :=
      containsSeq_mono (by decide) h
    rw [getTextRaw_no_ltE r wt hne hg ho ht hw] at h2
    cases h2
  · exact getTextRaw_has_exception_tag r wt

/-- C4 witness: a record at Exception level (without any supplied
exception) renders with the Exception section. -/
theorem c4_witness :
    containsSeq "<Exception>".data (GetText c4ExcRecord none) = true :=
  (c4_exception_section_iff c4ExcRecord none (by decide)
    (fun _ h => Option.noConfusion h) (by decide)
    (fun _ h => Option.noConfusion h)).mpr rfl

/-- C6 counterexample: at limit 0 a triggering first write produces a
file with the notice whose size exceeds the claimed bound of the limit
plus notice length plus end-marker length. -/
theorem c6_counterexample :
    (logStartBytes.length + ([65] : Bytes).length + logEndBytes.length : Int) ≥ 0 ∧
    containsSeq sizeNoticeBytes (S4.chronoWriteFirst 0 [65]) = true ∧
    ¬ ((S4.chronoWriteFirst 0 [65]).length ≤
        0 + sizeNoticeBytes.length + logEndBytes.length) := by
  refine ⟨by decide, by decide, by decide⟩

/-- C6 (amended): a triggering write under a non-negative cap contains
the truncation notice, and its size is bounded by
max(startMarker, L) + separator + payload + notice + endMarker — the
payload itself is never truncated, so the claimed bound of
L + notice + endMarker holds only when the payload fits the remainder. -/
theorem c6_sizecap_truncation (L : Int) (payload f : Bytes) :
    (0 ≤ L →
      (logStartBytes.length + payload.length + logEndBytes.length : Int) ≥ L →
      containsSeq sizeNoticeBytes (S4.chronoWriteFirst L payload) = true ∧
      (S4.chronoWriteFirst L payload).length ≤
        max logStartBytes.length L.toNat + sepBytes.length + payload.length +
          sizeNoticeBytes.length + logEndBytes.length) ∧
    (0 ≤ L →
      (f.length : Int) < L →
      (f.length + sepBytes.length + payload.length + logEndBytes.length : Int) ≥ L →
      ∃ f2, S4.chronoWriteAppend L payload f = some f2 ∧
        containsSeq sizeNoticeBytes f2 = true ∧
        f2.length ≤
          max logStartBytes.length L.toNat + sepBytes.length + payload.length +
            sizeNoticeBytes.length + logEndBytes.length) := by
  constructor
  · intro hL htrig
    have hcap : S4.cappedFirstPayload L payload = payload ++ sizeNoticeBytes := by
      unfold S4.cappedFirstPayload
      rw [if_pos ⟨htrig, hL⟩]
    constructor
    · show containsSeq sizeNoticeBytes
        (firstWriteFile logStartBytes logEndBytes (S4.cappedFirstPayload L payload)) = true
      rw [hcap]
      show containsSeq sizeNoticeBytes
        (logStartBytes ++ (payload ++ sizeNoticeBytes) ++ logEndBytes) = true
      rw [show logStartBytes ++ (payload ++ sizeNoticeBytes) ++ logEndBytes =
            (logStartBytes ++ payload) ++ sizeNoticeBytes ++ logEndBytes by
          simp [List.append_assoc]]
      exact containsSeq_of_middle _ _ _ (by decide)
    · show (firstWriteFile logStartBytes logEndBytes (S4.cappedFirstPayload L payload)).length ≤ _
      rw [hcap]
      unfold firstWriteFile
      simp only [List.length_append]
      have h1 : logStartBytes.length ≤ max logStartBytes.length L.toNat := le_max_left _ _
      omega
  · intro hL hlt htrig
    have hcap : S4.cappedAppendPayload L f.length payload = payload ++ sizeNoticeBytes := by
      unfold S4.cappedAppendPayload
      rw [if_pos ⟨htrig, hL⟩]
    have happ : S4.chronoWriteAppend L payload f =
        some (spliceAppend logEndBytes sepBytes (payload ++ sizeNoticeBytes) f) := by
      unfold S4.chronoWriteAppend
      rw [if_pos (Or.inr hlt), hcap]
    refine ⟨_, happ, ?_, ?_⟩
    · unfold spliceAppend
      rw [show f.take (f.length - logEndBytes.length) ++ sepBytes ++
            (payload ++ sizeNoticeBytes) ++ logEndBytes =
            (f.take (f.length - logEndBytes.length) ++ sepBytes ++ payload) ++
              sizeNoticeBytes ++ logEndBytes by simp [List.append_assoc]]
      exact containsSeq_of_middle _ _ _ (by decide)
    · have hLnat : f.length < L.toNat := by omega
      unfold spliceAppend
      simp only [List.length_append, List.length_take]
      have h1 : logStartBytes.length ≤ max logStartBytes.length L.toNat := le_max_left _ _
      have h2 : L.toNat ≤ max logStartBytes.length L.toNat := le_max_right _ _
      omega

/-- C6 witness: the amended theorem at a triggering first write
(limit 50) and a triggering append (limit 100 onto a 61-byte file). -/
theorem c6_witness :
    containsSeq sizeNoticeBytes (S4.chronoWriteFirst 50 (List.replicate 10 65)) = true ∧
    ∃ f2,
      S4.chronoWriteAppend 100 (List.replicate 30 65)
          (firstWriteFile logStartBytes logEndBytes [66]) = some f2 ∧
      containsSeq sizeNoticeBytes f2 = true := by
  have h1 := (c6_sizecap_truncation 50 (List.replicate 10 65) []).1 (by decide) (by decide)
  have h2 := (c6_sizecap_truncation 100 (List.replicate 30 65)
    (firstWriteFile logStartBytes logEndBytes [66])).2 (by decide) (by decide) (by decide)
  rcases h2 with ⟨f2, hf2, hc, _⟩
  exact ⟨h1.1, f2, hf2, hc⟩

/-- C10: a record that gets created by the S4 Log carries the supplied
exception when one was passed, and otherwise the exception currently
being handled (sys.exc_info()[1]); only when neither exists does it
carry none. -/
theorem c10_current_exception (st : S4.St) (sett : S4.Settings)
    (msg : List Char) (lvl : LogLevels) (grp own : Option (List Char))
    (ls : Bool) (exc cur : Option (List Char)) (now stk : List Char)
    (faults : Nat → Bool) (r : Report)
    (h : (S4.logCall st sett msg lvl grp own ls exc cur now stk faults).2 = some r) :
    r.exceptionText = (match exc with | none => cur | some e => some e) := by
  unfold S4.logCall at h
  split at h
  · exact Option.noConfusion h
  split at h
  · exact Option.noConfusion h
  split at h
  · exact Option.noConfusion h
  · have h2 := Option.some.inj h
    subst h2
    cases exc <;> rfl

/-- C10 witness: the theorem at a fresh logger with no supplied exception
while an exception is being handled. -/
theorem c10_witness :
    (S4.logCall S4.initSt c8Sett "m".data LogLevels.Info none none false
        none (some "cur".data) "t".data "s".data (fun _ => false)).2 =
      some c10Report ∧
    c10Report.exceptionText = some "cur".data := by
  constructor
  · rfl
  · exact c10_current_exception S4.initSt c8Sett "m".data LogLevels.Info none
      none false none (some "cur".data) "t".data "s".data (fun _ => false)
      c10Report rfl

/-- C2 (amended): once the failure counter has reached the limit, a Log
call leaves the logger (and the filesystem) exactly unchanged, and a
Flush call with an empty pending list leaves it exactly unchanged; a
poisoned logger whose pending list is nonempty (reachable only through
the continuous-mode write path with records left from an earlier burst
period) still attempts one batch write per Flush. -/
theorem c2_poisoned_noop :
    (∀ (st : Legacy.St) (sett : Legacy.Settings) (msg : List Char)
        (lvl : LogLevels) (grp own : Option (List Char)) (ls : Bool)
        (exc : Option (List Char)) (now stk : List Char) (faults : Nat → Bool),
        writeFailureLimit ≤ st.writeFailureCount →
        Legacy.logCall st sett msg lvl grp own ls exc now stk faults = (st, none)) ∧
    (∀ (st : Legacy.St) (sett : Legacy.Settings) (faults : Nat → Bool)
        (now : List Char),
        writeFailureLimit ≤ st.writeFailureCount →
        st.reportStorage = [] →
        Legacy.flush st sett faults now = st) := by
  constructor
  · intro st sett msg lvl grp own ls exc now stk faults h
    unfold Legacy.logCall
    rw [if_pos h]
  · intro st sett faults now h hstore
    have hstep : Legacy.logAllReportsStep st sett [] faults now = (st, false) := by
      unfold Legacy.logAllReportsStep
      split
      · rfl
      · simp
    have hlar : Legacy.logAllReports st sett st.reportStorage faults now = st := by
      rw [hstore]
      unfold Legacy.logAllReports
      rw [hstep]
      rfl
    unfold Legacy.flush
    split
    · rw [hlar, ← hstore]
    · rw [← hstore]

/-- C2 witness: the amended theorem at a concretely poisoned logger. -/
theorem c2_witness :
    Legacy.logCall { Legacy.initSt with writeFailureCount := 2 } burstSett
        "m".data LogLevels.Info none none false none "t".data "s".data
        (fun _ => false) =
      ({ Legacy.initSt with writeFailureCount := 2 }, none) ∧
    Legacy.flush { Legacy.initSt with writeFailureCount := 2 } burstSett
        (fun _ => false) "t".data =
      { Legacy.initSt with writeFailureCount := 2 } :=
  ⟨c2_poisoned_noop.1 _ burstSett "m".data LogLevels.Info none none false none
      "t".data "s".data (fun _ => false) (by decide),
   c2_poisoned_noop.2 _ burstSett (fun _ => false) "t".data (by decide) rfl⟩

/-- C2 counterexample: a burst-mode record left in the pending list, a
continuous-mode call whose write fails twice (reaching the failure
limit), and then a Flush — the poisoned logger still enters the guarded
write procedure once more. -/
theorem c2_counterexample :
    (Legacy.run Legacy.initSt [c2Op1, c2Op2]).1.writeFailureCount = writeFailureLimit ∧
    (Legacy.run Legacy.initSt [c2Op1, c2Op2]).1.reportStorage ≠ [] ∧
    (Legacy.run Legacy.initSt [c2Op1, c2Op2, c2Op3]).1.events.count Event.writeAttempt =
      (Legacy.run Legacy.initSt [c2Op1, c2Op2]).1.events.count Event.writeAttempt + 1 := by
  refine ⟨by decide, by decide, by decide⟩

namespace S4

theorem recordAttempt_events (st : St) :
    (recordAttempt st).events = st.events ++ [Event.writeAttempt] := rfl

theorem recordAttempt_count (st : St) :
    (recordAttempt st).writeFailureCount = st.writeFailureCount := rfl

theorem recordAttempt_shown (st : St) :
    (recordAttempt st).shownWriteFailureNotification =
      st.shownWriteFailureNotification := rfl

theorem recordFailure_events (st : St) :
    (recordFailure st).events = st.events := rfl

theorem recordFailure_count (st : St) :
    (recordFailure st).writeFailureCount = st.writeFailureCount + 1 := rfl

theorem recordFailure_shown (st : St) :
    (recordFailure st).shownWriteFailureNotification =
      st.shownWriteFailureNotification := rfl

theorem maybeNotify_count (st : St) :
    (maybeNotify st).writeFailureCount = st.writeFailureCount := by
  unfold maybeNotify
  split <;> rfl

theorem maybeNotify_shown (st : St) :
    (maybeNotify st).shownWriteFailureNotification = true := by
  unfold maybeNotify
  split
  · rfl
  · rename_i h
    simpa using h

theorem maybeNotify_events_of_not_shown (st : St)
    (h : st.shownWriteFailureNotification = false) :
    (maybeNotify st).events = st.events ++ [Event.notification] := by
  unfold maybeNotify
  rw [if_pos (by simp [h])]

theorem maybeNotify_of_shown (st : St)
    (h : st.shownWriteFailureNotification = true) :
    maybeNotify st = st := by
  unfold maybeNotify
  rw [if_neg (by simp [h])]

theorem changeLogFileOp_events (st : St) :
    (changeLogFileOp st).events = st.events ++ [Event.changeLogFile] := by
  unfold changeLogFileOp
  split <;> rfl

theorem changeLogFileOp_count (st : St) :
    (changeLogFileOp st).writeFailureCount = st.writeFailureCount := by
  unfold changeLogFileOp
  split <;> rfl

theorem changeLogFileOp_shown (st : St) :
    (changeLogFileOp st).shownWriteFailureNotification =
      st.shownWriteFailureNotification := by
  unfold changeLogFileOp
  split <;> rfl

/-- A faulted first attempt on an unpoisoned logger with a retryable
batch rotates and requests the retry of the flag-cleared batch. -/
theorem attemptStep_fault_retry (st : St) (sett : Settings)
    (reports : List Report) (faults : Nat → Bool) (now : List Char)
    (hwc : truthy sett.writeChronological = true)
    (hne : reports ≠ [])
    (hfault : faults st.attemptIdx = true)
    (hcount : st.writeFailureCount = 0)
    (hretry : (reports.filter (fun r => r.retryOnError)).length ≠ 0) :
    attemptStep st sett reports faults now =
      Sum.inr (changeLogFileOp (maybeNotify (recordFailure (recordAttempt st))),
        reports.map (fun r => { r with retryOnError := false })) := by
  have hout : attemptOutcome st sett reports faults now =
      Except.error PyError.injected := by
    unfold attemptOutcome
    rw [if_pos hfault]
  have hc : (maybeNotify (recordFailure (recordAttempt st))).writeFailureCount = 1 := by
    rw [maybeNotify_count, recordFailure_count, recordAttempt_count, hcount]
  unfold attemptStep
  rw [if_neg (by simp [hwc]), if_neg (by simp [hne])]
  simp only [hout]
  rw [if_pos (by rw [hc]; decide), if_pos hretry]

/-- A second attempt on a logger whose failure count is already 1 and
whose notification was already shown records exactly one further write
attempt and nothing else, whether it succeeds or fails, and never
requests another retry. -/
theorem attemptStep_second (st : St) (sett : Settings)
    (reports : List Report) (faults : Nat → Bool) (now : List Char)
    (hwc : truthy sett.writeChronological = true)
    (hne : reports ≠ [])
    (hshown : st.shownWriteFailureNotification = true)
    (hcount : st.writeFailureCount = 1) :
    ∃ s2, attemptStep st sett reports faults now = Sum.inl s2 ∧
      s2.events = st.events ++ [Event.writeAttempt] ∧
      (s2.writeFailureCount = 1 ∨ s2.writeFailureCount = 2) := by
  unfold attemptStep
  rw [if_neg (by simp [hwc]), if_neg (by simp [hne])]
  cases hout : attemptOutcome st sett reports faults now with
  | ok fs2 =>
    refine ⟨_, rfl, ?_, Or.inl ?_⟩
    · rfl
    · exact hcount
  | error e =>
    have hshown2 : (recordFailure (recordAttempt st)).shownWriteFailureNotification = true := by
      rw [recordFailure_shown, recordAttempt_shown, hshown]
    have hm : maybeNotify (recordFailure (recordAttempt st)) =
        recordFailure (recordAttempt st) := maybeNotify_of_shown _ hshown2
    have hc : (maybeNotify (recordFailure (recordAttempt st))).writeFailureCount = 2 := by
      rw [maybeNotify_count, recordFailure_count, recordAttempt_count, hcount]
    rw [if_neg (by rw [hc]; decide)]
    refine ⟨_, rfl, ?_, Or.inr ?_⟩
    · rw [hm, recordFailure_events, recordAttempt_events]
    · rw [hc]

end S4

/-- C8: when the first write of a batch of fresh (retryable) records
fails on an unpoisoned logger with the notification not yet shown,
ChangeLogFile is invoked exactly once, the notification is requested
exactly once, and the entire batch is retried exactly once (exactly two
entries into the guarded write procedure) whether or not the retry
succeeds — a failure during the retry triggers no further retry. -/
theorem c8_retry_bounded (st : S4.St) (sett : S4.Settings)
    (reports : List Report) (faults : Nat → Bool) (now : List Char)
    (hwc : truthy sett.writeChronological = true)
    (hne : reports ≠ [])
    (hflags : ∀ r ∈ reports, r.retryOnError = true)
    (hcount : st.writeFailureCount = 0)
    (hshown : st.shownWriteFailureNotification = false)
    (hfault : faults st.attemptIdx = true) :
    (S4.logAllReports st sett reports faults now).events.count Event.writeAttempt =
      st.events.count Event.writeAttempt + 2 ∧
    (S4.logAllReports st sett reports faults now).events.count Event.changeLogFile =
      st.events.count Event.changeLogFile + 1 ∧
    (S4.logAllReports st sett reports faults now).events.count Event.notification =
      st.events.count Event.notification + 1 ∧
    ((S4.logAllReports st sett reports faults now).writeFailureCount = 1 ∨
      (S4.logAllReports st sett reports faults now).writeFailureCount = 2) := by
  have hretry : (reports.filter (fun r => r.retryOnError)).length ≠ 0 := by
    rw [List.filter_eq_self.mpr (by intro a ha; simpa using hflags a ha)]
    simpa using hne
  have hstep1 := S4.attemptStep_fault_retry st sett reports faults now hwc hne hfault hcount hretry
  have hst4events :
      (S4.changeLogFileOp (S4.maybeNotify (S4.recordFailure (S4.recordAttempt st)))).events =
        st.events ++ [Event.writeAttempt, Event.notification, Event.changeLogFile] := by
    rw [S4.changeLogFileOp_events,
      S4.maybeNotify_events_of_not_shown _ (by rw [S4.recordFailure_shown, S4.recordAttempt_shown, hshown]),
      S4.recordFailure_events, S4.recordAttempt_events]
    simp
  have hst4shown :
      (S4.changeLogFileOp (S4.maybeNotify (S4.recordFailure (S4.recordAttempt st)))).shownWriteFailureNotification = true := by
    rw [S4.changeLogFileOp_shown, S4.maybeNotify_shown]
  have hst4count :
      (S4.changeLogFileOp (S4.maybeNotify (S4.recordFailure (S4.recordAttempt st)))).writeFailureCount = 1 := by
    rw [S4.changeLogFileOp_count, S4.maybeNotify_count, S4.recordFailure_count,
      S4.recordAttempt_count, hcount]
  have hne2 : reports.map (fun r => { r with retryOnError := false }) ≠ [] := by
    simpa using hne
  have hstep2 := S4.attemptStep_second
    (S4.changeLogFileOp (S4.maybeNotify (S4.recordFailure (S4.recordAttempt st))))
    sett (reports.map (fun r => { r with retryOnError := false })) faults now
    hwc hne2 hst4shown hst4count
  rcases hstep2 with ⟨s2, hs2eq, hs2events, hs2count⟩
  have hfinal : S4.logAllReports st sett reports faults now = s2 := by
    unfold S4.logAllReports
    simp only [hstep1, hs2eq]
  rw [hfinal, hs2events, hst4events]
  refine ⟨?_, ?_, ?_, hs2count⟩ <;> simp [List.count_append, List.count_cons]

namespace S4

theorem maybeNotify_logCount (st : St) :
    (maybeNotify st).logCount = st.logCount := by
  unfold maybeNotify
  split <;> rfl

theorem changeLogFileOp_logCount (st : St) :
    (changeLogFileOp st).logCount = st.logCount := by
  unfold changeLogFileOp
  split <;> rfl

theorem attemptStep_logCount_inl (st : St) (sett : Settings)
    (reports : List Report) (faults : Nat → Bool) (now : List Char) :
    ∀ s, attemptStep st sett reports faults now = Sum.inl s →
      s.logCount = st.logCount := by
  intro s h
  unfold attemptStep at h
  split at h
  · rw [← Sum.inl.inj h]
  split at h
  · rw [← Sum.inl.inj h]
  split at h
  · rw [← Sum.inl.inj h]
    rfl
  · split at h
    · split at h
      · exact Sum.noConfusion h
      · rw [← Sum.inl.inj h, changeLogFileOp_logCount, maybeNotify_logCount]
        rfl
    · rw [← Sum.inl.inj h, maybeNotify_logCount]
      rfl

theorem attemptStep_logCount_inr (st : St) (sett : Settings)
    (reports : List Report) (faults : Nat → Bool) (now : List Char) :
    ∀ s rs, attemptStep st sett reports faults now = Sum.inr (s, rs) →
      s.logCount = st.logCount := by
  intro s rs h
  unfold attemptStep at h
  split at h
  · exact Sum.noConfusion h
  split at h
  · exact Sum.noConfusion h
  split at h
  · exact Sum.noConfusion h
  · split at h
    · split at h
      · have h2 := Sum.inr.inj h
        rw [Prod.mk.injEq] at h2
        rw [← h2.1, changeLogFileOp_logCount, maybeNotify_logCount]
        rfl
      · exact Sum.noConfusion h
    · exact Sum.noConfusion h

theorem logAllReports_logCount (st : St) (sett : Settings) (reports : List Report)
    (faults : Nat → Bool) (now : List Char) :
    (logAllReports st sett reports faults now).logCount = st.logCount := by
  unfold logAllReports
  cases heq : attemptStep st sett reports faults now with
  | inl s =>
    simp only [heq]
    exact attemptStep_logCount_inl st sett reports faults now s heq
  | inr p =>
    obtain ⟨st2, reps2⟩ := p
    simp only [heq]
    have hst2 := attemptStep_logCount_inr st sett reports faults now st2 reps2 heq
    cases heq2 : attemptStep st2 sett reps2 faults now with
    | inl s3 =>
      simp only [heq2]
      rw [attemptStep_logCount_inl st2 sett reps2 faults now s3 heq2, hst2]
    | inr p3 =>
      obtain ⟨s3, rs3⟩ := p3
      simp only [heq2]
      rw [attemptStep_logCount_inr st2 sett reps2 faults now s3 rs3 heq2, hst2]

theorem flush_logCount (st : St) (sett : Settings) (faults : Nat → Bool)
    (now : List Char) :
    (flush st sett faults now).logCount = st.logCount := by
  unfold flush
  split
  · show (logAllReports st sett _ faults now).logCount = _
    rw [logAllReports_logCount]
  · rfl

theorem logCall_spec (st : St) (sett : Settings) (msg : List Char)
    (lvl : LogLevels) (grp own : Option (List Char)) (ls : Bool)
    (exc cur : Option (List Char)) (now stk : List Char) (faults : Nat → Bool) :
    ((logCall st sett msg lvl grp own ls exc cur now stk faults).1.logCount = st.logCount ∧
      (logCall st sett msg lvl grp own ls exc cur now stk faults).2 = none) ∨
    ((logCall st sett msg lvl grp own ls exc cur now stk faults).1.logCount = st.logCount + 1 ∧
      ((logCall st sett msg lvl grp own ls exc cur now stk faults).2 = none ∨
        ∃ r, (logCall st sett msg lvl grp own ls exc cur now stk faults).2 = some r ∧
          r.logNumber = st.logCount + 1)) := by
  unfold logCall
  split
  · exact Or.inl ⟨rfl, rfl⟩
  split
  · exact Or.inl ⟨rfl, rfl⟩
  split
  · exact Or.inr ⟨rfl, Or.inl rfl⟩
  · refine Or.inr ⟨?_, Or.inr ⟨_, rfl, rfl⟩⟩
    split
    · rw [flush_logCount]
    · rfl

end S4

namespace Legacy

theorem changeLogFileOp_number (st : St) :
    (changeLogFileOp st).currentLogNumber = st.currentLogNumber := by
  unfold changeLogFileOp
  split <;> rfl

theorem maybeNotify_number (st : St) :
    (maybeNotify st).currentLogNumber = st.currentLogNumber := by
  unfold maybeNotify
  split <;> rfl

theorem logReportStep_number (st : St) (sett : Settings) (report : Report)
    (faults : Nat → Bool) :
    (logReportStep st sett report faults).1.currentLogNumber = st.currentLogNumber := by
  unfold logReportStep
  split
  · rfl
  split
  · rfl
  · split
    · rw [changeLogFileOp_number, maybeNotify_number]
      rfl
    · rw [maybeNotify_number]
      rfl

theorem logReport_number (st : St) (sett : Settings) (report : Report)
    (faults : Nat → Bool) :
    (logReport st sett report faults).currentLogNumber = st.currentLogNumber := by
  show (if (logReportStep st sett report faults).2 = true
      then (logReportStep (logReportStep st sett report faults).1 sett report faults).1
      else (logReportStep st sett report faults).1).currentLogNumber = st.currentLogNumber
  split
  · rw [logReportStep_number, logReportStep_number]
  · rw [logReportStep_number]

theorem logAllReportsStep_number (st : St) (sett : Settings)
    (reports : List Report) (faults : Nat → Bool) (now : List Char) :
    (logAllReportsStep st sett reports faults now).1.currentLogNumber =
      st.currentLogNumber := by
  unfold logAllReportsStep
  split
  · rfl
  split
  · rfl
  split
  · rfl
  · split
    · rw [changeLogFileOp_number, maybeNotify_number]
      rfl
    · rw [maybeNotify_number]
      rfl

theorem logAllReports_number (st : St) (sett : Settings)
    (reports : List Report) (faults : Nat → Bool) (now : List Char) :
    (logAllReports st sett reports faults now).currentLogNumber =
      st.currentLogNumber := by
  show (if (logAllReportsStep st sett reports faults now).2 = true
      then (logAllReportsStep (logAllReportsStep st sett reports faults now).1
        sett reports faults now).1
      else (logAllReportsStep st sett reports faults now).1).currentLogNumber =
    st.currentLogNumber
  split
  · rw [logAllReportsStep_number, logAllReportsStep_number]
  · rw [logAllReportsStep_number]

theorem flush_number (st : St) (sett : Settings) (faults : Nat → Bool)
    (now : List Char) :
    (flush st sett faults now).currentLogNumber = st.currentLogNumber := by
  unfold flush
  split
  · exact logAllReports_number st sett st.reportStorage faults now
  · rfl

theorem afterCreate_number (st1 : St) (sett : Settings) (report : Report)
    (level : LogLevels) (faults : Nat → Bool) (now : List Char) :
    (afterCreate st1 sett report level faults now).currentLogNumber =
      st1.currentLogNumber := by
  unfold afterCreate
  cases hmode : sett.loggingMode with
  | Burst =>
    simp only [hmode]
    split
    · rw [flush_number]
      show (if sett.exiting then logReport st1 sett report faults
          else st1).currentLogNumber = st1.currentLogNumber
      split
      · rw [logReport_number]
      · rfl
    · show (if sett.exiting then logReport st1 sett report faults
          else st1).currentLogNumber = st1.currentLogNumber
      split
      · rw [logReport_number]
      · rfl
  | Continuous =>
    simp only [hmode]
    show (logReport (if sett.exiting then logReport st1 sett report faults else st1)
        sett report faults).currentLogNumber = st1.currentLogNumber
    rw [logReport_number]
    split
    · rw [logReport_number]
    · rfl

theorem legacy_logCall_spec (st : St) (sett : Settings) (msg : List Char)
    (lvl : LogLevels) (grp own : Option (List Char)) (ls : Bool)
    (exc : Option (List Char)) (now stk : List Char) (faults : Nat → Bool) :
    ((logCall st sett msg lvl grp own ls exc now stk faults).1.currentLogNumber =
        st.currentLogNumber ∧
      (logCall st sett msg lvl grp own ls exc now stk faults).2 = none) ∨
    ((logCall st sett msg lvl grp own ls exc now stk faults).1.currentLogNumber =
        st.currentLogNumber + 1 ∧
      ∃ r, (logCall st sett msg lvl grp own ls exc now stk faults).2 = some r ∧
        r.logNumber = st.currentLogNumber) := by
  unfold logCall
  split
  · exact Or.inl ⟨rfl, rfl⟩
  split
  · exact Or.inl ⟨rfl, rfl⟩
  split
  · exact Or.inr ⟨rfl, _, rfl, rfl⟩
  split
  · exact Or.inr ⟨rfl, _, rfl, rfl⟩
  · refine Or.inr ⟨?_, _, rfl, rfl⟩
    rw [afterCreate_number]

end Legacy

namespace S4

/-- Each S4 operation either creates no record (and never decreases the
counter), or creates exactly the record numbered logCount + 1 and
advances the counter to it. -/
theorem step_created (st : St) (op : Op) :
    ((step st op).2 = none ∧ st.logCount ≤ (step st op).1.logCount) ∨
    (∃ r, (step st op).2 = some r ∧ r.logNumber = st.logCount + 1 ∧
      (step st op).1.logCount = st.logCount + 1) := by
  cases op with
  | log sett msg lvl grp own ls exc cur now stk faults =>
    show ((logCall st sett msg lvl grp own ls exc cur now stk faults).2 = none ∧
        st.logCount ≤
          (logCall st sett msg lvl grp own ls exc cur now stk faults).1.logCount) ∨
      (∃ r, (logCall st sett msg lvl grp own ls exc cur now stk faults).2 = some r ∧
        r.logNumber = st.logCount + 1 ∧
        (logCall st sett msg lvl grp own ls exc cur now stk faults).1.logCount =
          st.logCount + 1)
    rcases logCall_spec st sett msg lvl grp own ls exc cur now stk faults with
      ⟨hcnt, hnone⟩ | ⟨hcnt, hopt⟩
    · exact Or.inl ⟨hnone, le_of_eq hcnt.symm⟩
    · rcases hopt with hnone | ⟨r, hsome, hnum⟩
      · exact Or.inl ⟨hnone, by rw [hcnt]; omega⟩
      · exact Or.inr ⟨r, hsome, hnum, hcnt⟩
  | flush sett faults now =>
    refine Or.inl ⟨rfl, ?_⟩
    show st.logCount ≤ (flush st sett faults now).logCount
    rw [flush_logCount]
  | changeLog =>
    refine Or.inl ⟨rfl, ?_⟩
    show st.logCount ≤ (changeLogFileOp st).logCount
    rw [changeLogFileOp_logCount]

theorem run_spec (ops : List Op) : ∀ st : St,
    st.logCount ≤ (run st ops).1.logCount ∧
    (∀ n ∈ (run st ops).2, st.logCount < n) ∧
    List.Pairwise (· < ·) (run st ops).2 := by
  induction ops with
  | nil =>
    intro st
    refine ⟨le_refl _, ?_, ?_⟩
    · intro n hn
      simp [run] at hn
    · simp [run]
  | cons op ops ih =>
    intro st
    have hstep := step_created st op
    have hrest := ih (step st op).1
    have hmono2 : st.logCount ≤ (step st op).1.logCount := by
      rcases hstep with ⟨_, h⟩ | ⟨r, _, _, h⟩
      · exact h
      · rw [h]
        omega
    refine ⟨?_, ?_, ?_⟩
    · show st.logCount ≤ (run (step st op).1 ops).1.logCount
      exact le_trans hmono2 hrest.1
    · show ∀ n ∈ (match (step st op).2 with | some r => [r.logNumber] | none => [])
          ++ (run (step st op).1 ops).2, st.logCount < n
      intro n hn
      rcases List.mem_append.mp hn with hn | hn
      · rcases hstep with ⟨hnone, _⟩ | ⟨r, hsome, hnum, _⟩
        · rw [hnone] at hn
          simp at hn
        · rw [hsome] at hn
          simp at hn
          rw [hn, hnum]
          omega
      · have := hrest.2.1 n hn
        omega
    · show List.Pairwise (· < ·)
        ((match (step st op).2 with | some r => [r.logNumber] | none => [])
          ++ (run (step st op).1 ops).2)
      rcases hstep with ⟨hnone, _⟩ | ⟨r, hsome, hnum, hcnt⟩
      · rw [hnone]
        simpa using hrest.2.2
      · rw [hsome]
        show List.Pairwise (· < ·) (r.logNumber :: (run (step st op).1 ops).2)
        rw [List.pairwise_cons]
        refine ⟨?_, hrest.2.2⟩
        intro n hn
        have := hrest.2.1 n hn
        rw [hcnt] at this
        omega

end S4

namespace Legacy

/-- Each legacy operation either creates no record (and never decreases
the counter), or creates exactly the record numbered with the
pre-increment counter and advances the counter past it. -/
theorem legacy_step_created (st : St) (op : Op) :
    ((step st op).2 = none ∧ st.currentLogNumber ≤ (step st op).1.currentLogNumber) ∨
    (∃ r, (step st op).2 = some r ∧ r.logNumber = st.currentLogNumber ∧
      (step st op).1.currentLogNumber = st.currentLogNumber + 1) := by
  cases op with
  | log sett msg lvl grp own ls exc now stk faults =>
    show ((logCall st sett msg lvl grp own ls exc now stk faults).2 = none ∧
        st.currentLogNumber ≤
          (logCall st sett msg lvl grp own ls exc now stk faults).1.currentLogNumber) ∨
      (∃ r, (logCall st sett msg lvl grp own ls exc now stk faults).2 = some r ∧
        r.logNumber = st.currentLogNumber ∧
        (logCall st sett msg lvl grp own ls exc now stk faults).1.currentLogNumber =
          st.currentLogNumber + 1)
    rcases legacy_logCall_spec st sett msg lvl grp own ls exc now stk faults with
      ⟨hcnt, hnone⟩ | ⟨hcnt, r, hsome, hnum⟩
    · exact Or.inl ⟨hnone, le_of_eq hcnt.symm⟩
    · exact Or.inr ⟨r, hsome, hnum, hcnt⟩
  | flush sett faults now =>
    refine Or.inl ⟨rfl, ?_⟩
    show st.currentLogNumber ≤ (flush st sett faults now).currentLogNumber
    rw [flush_number]
  | changeLog =>
    refine Or.inl ⟨rfl, ?_⟩
    show st.currentLogNumber ≤ (changeLogFileOp st).currentLogNumber
    rw [changeLogFileOp_number]

theorem legacy_run_spec (ops : List Op) : ∀ st : St,
    st.currentLogNumber ≤ (run st ops).1.currentLogNumber ∧
    (∀ n ∈ (run st ops).2, st.currentLogNumber ≤ n) ∧
    List.Pairwise (· < ·) (run st ops).2 := by
  induction ops with
  | nil =>
    intro st
    refine ⟨le_refl _, ?_, ?_⟩
    · intro n hn
      simp [run] at hn
    · simp [run]
  | cons op ops ih =>
    intro st
    have hstep := legacy_step_created st op
    have hrest := ih (step st op).1
    have hmono2 : st.currentLogNumber ≤ (step st op).1.currentLogNumber := by
      rcases hstep with ⟨_, h⟩ | ⟨r, _, _, h⟩
      · exact h
      · rw [h]
        omega
    refine ⟨?_, ?_, ?_⟩
    · show st.currentLogNumber ≤ (run (step st op).1 ops).1.currentLogNumber
      exact le_trans hmono2 hrest.1
    · show ∀ n ∈ (match (step st op).2 with | some r => [r.logNumber] | none => [])
          ++ (run (step st op).1 ops).2, st.currentLogNumber ≤ n
      intro n hn
      rcases List.mem_append.mp hn with hn | hn
      · rcases hstep with ⟨hnone, _⟩ | ⟨r, hsome, hnum, _⟩
        · rw [hnone] at hn
          simp at hn
        · rw [hsome] at hn
          simp at hn
          rw [hn, hnum]
      · have := hrest.2.1 n hn
        omega
    · show List.Pairwise (· < ·)
        ((match (step st op).2 with | some r => [r.logNumber] | none => [])
          ++ (run (step st op).1 ops).2)
      rcases hstep with ⟨hnone, _⟩ | ⟨r, hsome, hnum, hcnt⟩
      · rw [hnone]
        simpa using hrest.2.2
      · rw [hsome]
        show List.Pairwise (· < ·) (r.logNumber :: (run (step st op).1 ops).2)
        rw [List.pairwise_cons]
        refine ⟨?_, hrest.2.2⟩
        intro n hn
        have := hrest.2.1 n hn
        rw [hcnt] at this
        omega

end Legacy

/-- C1 (amended): in both variants the sequence numbers of the records
that get created are strictly increasing across any sequence of Log,
Flush and ChangeLogFile operations on a fresh logger — no number is ever
reused, including across rotations.  In the S4 variant every created
number is at least 1 (but the first created number exceeds 1 when an
earlier call was level-filtered, since filtered calls consume numbers);
in the legacy variant numbering starts at 0. -/
theorem c1_monotonic_sequencing :
    (∀ ops : List S4.Op,
      List.Pairwise (· < ·) (S4.createdNumbers ops) ∧
      (S4.createdNumbers ops).all (fun n => decide (1 ≤ n)) = true) ∧
    (∀ ops : List Legacy.Op,
      List.Pairwise (· < ·) (Legacy.createdNumbers ops)) := by
  constructor
  · intro ops
    have h := S4.run_spec ops S4.initSt
    refine ⟨h.2.2, ?_⟩
    rw [List.all_eq_true]
    intro n hn
    have h2 := h.2.1 n hn
    simp only [decide_eq_true_eq]
    omega
  · intro ops
    exact (Legacy.legacy_run_spec ops Legacy.initSt).2.2

/-- C8 witness: the theorem at a fresh logger, one report, chronological
writing on, and an always-failing filesystem. -/
theorem c8_witness :
    (S4.logAllReports S4.initSt c8Sett [c8Report] (fun _ => true) "t".data).events.count
        Event.writeAttempt = 2 ∧
    (S4.logAllReports S4.initSt c8Sett [c8Report] (fun _ => true) "t".data).events.count
        Event.changeLogFile = 1 ∧
    (S4.logAllReports S4.initSt c8Sett [c8Report] (fun _ => true) "t".data).events.count
        Event.notification = 1 := by
  have h := c8_retry_bounded S4.initSt c8Sett [c8Report] (fun _ => true) "t".data
    (by decide) (by decide) (by intro r hr; simp at hr; rw [hr]; rfl)
    rfl rfl rfl
  exact ⟨by rw [h.1]; rfl, by rw [h.2.1]; rfl, by rw [h.2.2.1]; rfl⟩

end S4Debug
